import Mathlib

/-!
Verification of the scheme-configuration engine
(`src/New_auto_pf_selection.py` and `src/Decision.py`).

Modelling conventions, used throughout:

* Python `decimal.Decimal` values (context precision 50, quantization with
  `ROUND_HALF_UP`) are modelled as exact rationals (`ℚ`); every explicit
  `quantize(Decimal("0.01")/("0.00"), ROUND_HALF_UP)` in the source becomes
  `round2` below.  The 50-significant-digit intermediate rounding of the
  `decimal` context, and the final `float(...)` conversions when numbers are
  written into JSON, are abstracted as exact arithmetic.
* Python text is modelled as `List Char`; `str.lower` becomes `Char.toLower`
  mapped over the list (the identifiers in scope are ASCII).
* JSON documents carried in record cells are modelled as parsed trees
  (inductive `Json` below); `json.loads`/`json.dumps` round-trips are
  abstracted away, and a blank cell is `Option.none` where the source
  distinguishes blank text from a document.
* Python `dict` preserves insertion order and assignment `d[k] = v` keeps the
  position of an existing key; both are modelled by association lists and
  `Json.setKey`.
-/

/- `Batteries` marks the `Rat` arithmetic operations `@[irreducible]`, which
would block `decide`/`rfl` evaluation of the translated functions on
concrete inputs; restore the default reducibility locally. -/
attribute [local semireducible] Rat.add Rat.sub Rat.mul Rat.inv Rat.ofScientific

/-- `Decimal.quantize` at two decimal places with `ROUND_HALF_UP`
(round to nearest, ties away from zero).  `Rat.floor` is used so that the
definition evaluates by kernel reduction. -/
def round2 (x : ℚ) : ℚ :=
  if x < 0 then -((((-x * 100 + 1/2).floor : ℤ) : ℚ) / 100)
  else (((x * 100 + 1/2).floor : ℤ) : ℚ) / 100

/-- `round2` through the ambient `Int.floor`. -/
theorem round2_eq_intFloor (x : ℚ) :
    round2 x =
      if x < 0 then -(((⌊-x * 100 + 1/2⌋ : ℤ) : ℚ) / 100)
      else ((⌊x * 100 + 1/2⌋ : ℤ) : ℚ) / 100 := by
  rw [round2]
  split <;> rw [Rat.floor_def', ← Rat.floor_def]

namespace NewAuto

/-! ### Constants of `src/New_auto_pf_selection.py` (lines 16-38) -/

def SECURE_S1_DELIGHT : ℚ := 995/100
def SECURE_S2_DELIGHT : ℚ := 17

def SECURE_S1_ROYAL : ℚ := 132/10
def SECURE_S2_ROYAL : ℚ := 185/10

def UNSECURE_JSON_6_7 : ℚ × ℚ × ℚ := (48, 48, 48)
def UNSECURE_JSON_12 : ℚ × ℚ × ℚ := (3765/100, 3765/100, 3765/100)

def UNSECURE_CALC_6_7 : ℚ × ℚ × ℚ := (48, 46, 48)
def UNSECURE_CALC_12 : ℚ × ℚ × ℚ := (3765/100, 32, 3765/100)

def LTV_CODE_MAP : List (String × ℚ) :=
  [("e0", 80), ("s5", 75), ("s7", 77), ("s6", 76), ("si5", 65)]

def GROUP_SCHEME_CODES : List String := ["s2", "s4", "s5", "s7"]
def E_SERIES_CODES : List String := ["e0", "e1", "e2", "e4"]

/-! ### Decision engine (lines 259-293) -/

/-- `decision_engine(overall_ltv, monthly_opp, requested_tenure)`:
tier classification and final-term normalization. -/
def decision_engine (overall_ltv monthly_opp : ℚ) (requested_tenure : ℤ) :
    String × ℤ :=
  let secure_s1 : ℚ := 995/100
  let secure_ltv : ℚ := if requested_tenure = 12 then 60 else 67
  let unsecure_s1 : ℚ := if requested_tenure = 12 then 3765/100 else 48
  if overall_ltv ≤ secure_ltv then
    if requested_tenure = 6 ∨ requested_tenure = 7 then ("Royal", 7)
    else ("Royal", requested_tenure)
  else
    let secure_weight := secure_ltv / overall_ltv
    let unsecure_weight := (overall_ltv - secure_ltv) / overall_ltv
    let min_opp := round2 ((secure_weight * secure_s1) / 12)
    let max_opp :=
      round2 ((secure_weight * secure_s1 + unsecure_weight * unsecure_s1) / 12)
    if min_opp ≤ monthly_opp ∧ monthly_opp ≤ max_opp then
      ("Delight", requested_tenure)
    else if requested_tenure = 6 ∨ requested_tenure = 7 then ("Royal", 7)
    else ("Royal", requested_tenure)

/-! ### Interest engine (lines 299-354) -/

/-- `secure_slab3(tenure)`: annualized compounded secured slab-3 rate. -/
def secure_slab3 (tenure : ℤ) : ℚ :=
  let r : ℚ := 229/1000
  let m : ℚ := 12
  let t : ℚ := (tenure : ℚ)
  let compound : ℚ := (1 + r / m) ^ tenure.toNat
  round2 ((compound - 1) * m / t * 100)

/-- The secured-LTV weight basis of `interest_engine` (lines 317-322):
term 6 → 67, term 7 → 66, otherwise 60. -/
def interest_secure_ltv (tenure : ℤ) : ℚ :=
  if tenure = 6 then 67 else if tenure = 7 then 66 else 60

/-- `secure_weight = secure_ltv / overall_ltv` (line 333). -/
def secure_weight (tenure : ℤ) (overall_ltv : ℚ) : ℚ :=
  interest_secure_ltv tenure / overall_ltv

/-- `unsecure_weight = (overall_ltv - secure_ltv) / overall_ltv` (line 334). -/
def unsecure_weight (tenure : ℤ) (overall_ltv : ℚ) : ℚ :=
  (overall_ltv - interest_secure_ltv tenure) / overall_ltv

/-- The dictionary returned by `interest_engine` (lines 348-354). -/
structure InterestResult where
  secure_slabs : ℚ × ℚ × ℚ
  unsecure_slabs : ℚ × ℚ × ℚ
  overall_slabs : ℚ × ℚ × ℚ
  secure_ltv : ℚ
  calc_unsecure_slabs : ℚ × ℚ × ℚ
deriving DecidableEq

/-- `interest_engine(scheme, tenure, overall_ltv, monthly_opp)` (lines 307-354). -/
def interest_engine (scheme : String) (tenure : ℤ)
    (overall_ltv monthly_opp : ℚ) : InterestResult :=
  let secure_s1 := if scheme = "Delight" then SECURE_S1_DELIGHT else SECURE_S1_ROYAL
  let secure_s2 := if scheme = "Delight" then SECURE_S2_DELIGHT else SECURE_S2_ROYAL
  let secure_ltv := interest_secure_ltv tenure
  let secure_s3 := secure_slab3 tenure
  let calc_unsecure := if tenure = 12 then UNSECURE_CALC_12 else UNSECURE_CALC_6_7
  let json_unsecure := if tenure = 12 then UNSECURE_JSON_12 else UNSECURE_JSON_6_7
  let sw := secure_weight tenure overall_ltv
  let uw := unsecure_weight tenure overall_ltv
  let s1 := round2 (monthly_opp * 12)
  let s2 := round2 (sw * secure_s2 + uw * calc_unsecure.2.1)
  let s3 := round2 (sw * secure_s3 + uw * calc_unsecure.2.2)
  { secure_slabs := (secure_s1, secure_s2, secure_s3)
    unsecure_slabs := json_unsecure
    overall_slabs := (s1, s2, s3)
    secure_ltv := secure_ltv
    calc_unsecure_slabs := calc_unsecure }

/-! ### Fee back-calculation (Compute loop, lines 630-666) -/

/-- `denominator = Decimal("1") - (secure_ltv / overall_ltv)` (line 631). -/
def denominator_of (secure_ltv overall_ltv : ℚ) : ℚ :=
  1 - secure_ltv / overall_ltv

/-- `(stated_pf / denominator).quantize(Decimal("0.00"), ROUND_HALF_UP)`
(lines 665-666), shared by the min and max bounds. -/
def unsecure_pf_backcalc (stated denom : ℚ) : ℚ :=
  round2 (stated / denom)

/-- Lines 662-666: the min/max inputs default to the single overall PF when
no range was declared, and each bound is back-calculated independently. -/
def pf_backcalc_pair (pf_min pf_max : Option ℚ) (overall_pf denom : ℚ) :
    ℚ × ℚ :=
  (unsecure_pf_backcalc (pf_min.getD overall_pf) denom,
   unsecure_pf_backcalc (pf_max.getD overall_pf) denom)

/-- `get_tenure_days(tenure)` (lines 118-120). -/
def get_tenure_days (tenure : ℤ) : ℤ :=
  if tenure = 6 then 180 else if tenure = 7 then 210
  else if tenure = 12 then 360 else tenure * 30

end NewAuto

namespace DecisionPy

/-- `decision_engine` from `src/Decision.py` (lines 94-123); unlike the
`New_auto_pf_selection.py` revision it returns the requested tenure
unchanged in every branch. -/
def decision_engine (overall_ltv monthly_opp : ℚ) (requested_tenure : ℤ) :
    String × ℤ :=
  let secure_s1 : ℚ := 995/100
  let secure_ltv : ℚ := if requested_tenure = 12 then 60 else 67
  let unsecure_s1 : ℚ := if requested_tenure = 12 then 3765/100 else 48
  if overall_ltv ≤ secure_ltv then
    ("Royal", requested_tenure)
  else
    let secure_weight := secure_ltv / overall_ltv
    let unsecure_weight := (overall_ltv - secure_ltv) / overall_ltv
    let min_opp := round2 ((secure_weight * secure_s1) / 12)
    let max_opp :=
      round2 ((secure_weight * secure_s1 + unsecure_weight * unsecure_s1) / 12)
    if min_opp ≤ monthly_opp ∧ monthly_opp ≤ max_opp then
      ("Delight", requested_tenure)
    else ("Royal", requested_tenure)

/-- Python truthiness of an optional numeric cell: `None` and `0` are falsy. -/
def pyTruthy (x : Option ℚ) : Bool :=
  match x with
  | none => false
  | some q => decide (q ≠ 0)

/-- Truthiness for the integer tenure. -/
def pyTruthyInt (x : Option ℤ) : Bool :=
  match x with
  | none => false
  | some n => decide (n ≠ 0)

/-- The skip guard of the `Decision.py` Compute loop (line 288):
`if not all([overall_ltv, requested_tenure, monthly_opp, overall_pf]): continue`. -/
def skip_guard (overall_ltv : Option ℚ) (requested_tenure : Option ℤ)
    (monthly_opp overall_pf : Option ℚ) : Bool :=
  !(pyTruthy overall_ltv && pyTruthyInt requested_tenure &&
    pyTruthy monthly_opp && pyTruthy overall_pf)

end DecisionPy

/-! ### Text toolkit: Python `str` / `re` behaviour over `List Char`

The regular expressions of the source are small and deterministic (greedy
character-class repetition followed by characters outside the class), so each
pattern is translated into an explicit matcher.  A matcher takes the previous
character (for `\b` word-boundary tests; `none` at the start of the text) and
the suffix starting at the current position, and returns the suffix remaining
after the match, or `none`. -/

/-- Python `str.lower()` (ASCII range). -/
def lowerStr (s : List Char) : List Char := s.map Char.toLower

/-- Python regex `\w` (ASCII scope): letters, digits, underscore. -/
def isWordChar (c : Char) : Bool := c.isAlphanum || c = '_'

/-- Python regex `\s` (ASCII scope). -/
def isSpaceChar (c : Char) : Bool :=
  c = ' ' || c = '\t' || c = '\n' || c = '\x0d' || c = '\x0b' || c = '\x0c'

/-- Characters matched by `[a-z0-9]` (tokenization happens on lowered text). -/
def isTokenChar (c : Char) : Bool := ('a' ≤ c && c ≤ 'z') || c.isDigit

/-- Case-insensitive character comparison (`re.IGNORECASE`). -/
def chEqCI (a b : Char) : Bool := a.toLower = b.toLower

/-- A `\b` boundary holds before a word character iff the previous character
is absent or not a word character. -/
def boundaryBefore (prev : Option Char) : Bool :=
  prev.elim true (fun p => !isWordChar p)

/-- A `\b` boundary holds after a word character iff the next character is
absent or not a word character. -/
def boundaryAfter (rest : List Char) : Bool :=
  rest.head?.elim true (fun c => !isWordChar c)

/-- Case-sensitive literal match at the head of the text; returns the rest. -/
def matchLit : List Char → List Char → Option (List Char)
  | [], s => some s
  | _ :: _, [] => none
  | p :: ps, c :: cs => if c = p then matchLit ps cs else none

/-- Case-insensitive literal match at the head of the text. -/
def matchLitCI : List Char → List Char → Option (List Char)
  | [], s => some s
  | _ :: _, [] => none
  | p :: ps, c :: cs => if chEqCI c p then matchLitCI ps cs else none

/-- Greedy `p*` over a character class: drop the maximal run. -/
def dropClass (p : Char → Bool) : List Char → List Char
  | [] => []
  | c :: cs => if p c then dropClass p cs else c :: cs

/-- Substring containment, Python `tok in s` (both already lowered). -/
def containsTok (tok : List Char) : List Char → Bool
  | [] => (matchLit tok []).isSome
  | c :: cs => (matchLit tok (c :: cs)).isSome || containsTok tok cs

/-- The value of a digit run. -/
def digitsToNat (ds : List Char) : ℕ :=
  ds.foldl (fun a c => a * 10 + (c.toNat - 48)) 0

/-- Match `[0-9]+(?:\.[0-9]+)?` at the head, returning the captured value. -/
def matchNumber (s : List Char) : Option (ℚ × List Char) :=
  let digits := s.takeWhile Char.isDigit
  if digits.isEmpty then none
  else
    let rest := s.dropWhile Char.isDigit
    let intPart : ℚ := (digitsToNat digits : ℚ)
    match rest with
    | '.' :: r2 =>
      let frac := r2.takeWhile Char.isDigit
      -- the optional fraction group fails when no digit follows the dot
      if frac.isEmpty then some (intPart, rest)
      else some (intPart + (digitsToNat frac : ℚ) / 10 ^ frac.length,
                 r2.dropWhile Char.isDigit)
    | _ => some (intPart, rest)

/-- `re.search`-style leftmost scan.  Returns
(reversed text before the match, text from the match on, text after the
match) for the leftmost position where the matcher succeeds. -/
def reFind (m : Option Char → List Char → Option (List Char)) :
    List Char → Option Char → List Char →
    Option (List Char × List Char × List Char)
  | revPre, prev, [] => (m prev []).map (fun rest => (revPre, [], rest))
  | revPre, prev, c :: cs =>
    match m prev (c :: cs) with
    | some rest => some (revPre, c :: cs, rest)
    | none => reFind m (c :: revPre) (some c) cs

/-- `bool(re.search(...))`. -/
def reSearchB (m : Option Char → List Char → Option (List Char))
    (s : List Char) : Bool :=
  (reFind m [] none s).isSome

/-- `re.sub(..., repl, s, count=1)`: replace the leftmost match only. -/
def subFirst (m : Option Char → List Char → Option (List Char))
    (repl : List Char) (s : List Char) : List Char :=
  match reFind m [] none s with
  | some (revPre, _, rest) => revPre.reverse ++ repl ++ rest
  | none => s

/-- `re.sub(..., repl, s)` (global): fuel-driven scan; matches are found on
the original text left to right and never overlap; a (never occurring)
empty match is treated as no match to keep the scan progressing. -/
def subAllFuel (m : Option Char → List Char → Option (List Char))
    (repl : List Char) : ℕ → Option Char → List Char → List Char
  | 0, _, s => s
  | _ + 1, _, [] => []
  | fuel + 1, prev, c :: cs =>
    match m prev (c :: cs) with
    | some rest =>
      if rest.length = (c :: cs).length then c :: subAllFuel m repl fuel (some c) cs
      else
        let matched := (c :: cs).take ((c :: cs).length - rest.length)
        repl ++ subAllFuel m repl fuel (matched.getLast? ) rest
    | none => c :: subAllFuel m repl fuel (some c) cs

/-- Global substitution wrapper; the text length bounds the scan. -/
def subAll (m : Option Char → List Char → Option (List Char))
    (repl : List Char) (s : List Char) : List Char :=
  subAllFuel m repl s.length none s

/-- The text before the first case-insensitive occurrence of `tok`
(`re.split(tok, s, flags=re.IGNORECASE)[0]`); the whole text when absent. -/
def splitHeadCI (tok : List Char) (s : List Char) : List Char :=
  match reFind (fun _ suf => matchLitCI tok suf) [] none s with
  | some (revPre, _, _) => revPre.reverse
  | none => s

/-- The text between the first and second case-insensitive occurrence of
`tok` (or to the end): `re.split(tok, s, flags=re.IGNORECASE)[1]`;
`none` when the token does not occur. -/
def splitSecondCI (tok : List Char) (s : List Char) : Option (List Char) :=
  match reFind (fun _ suf => matchLitCI tok suf) [] none s with
  | some (_, _, rest) => some (splitHeadCI tok rest)
  | none => none

/-- Deterministic pattern items for the small character-class patterns. -/
inductive Pat where
  | ch (c : Char)
  | chs (cs : List Char)
  | opt (cs : List Char)
  | star (cs : List Char)

/-- Match a `Pat` sequence at the head of the text (all uses are
deterministic: every class repetition is followed by a character outside
the class, so greedy maximal munch coincides with regex backtracking). -/
def matchPats : List Pat → List Char → Option (List Char)
  | [], s => some s
  | .ch c :: ps, x :: r => if x = c then matchPats ps r else none
  | .ch _ :: _, [] => none
  | .chs cs :: ps, x :: r => if x ∈ cs then matchPats ps r else none
  | .chs _ :: _, [] => none
  | .opt cs :: ps, x :: r =>
    if x ∈ cs then matchPats ps r else matchPats ps (x :: r)
  | .opt _ :: ps, [] => matchPats ps []
  | .star cs :: ps, s => matchPats ps (dropClass (fun c => c ∈ cs) s)

/-- `re.search` of a plain (boundary-free) `Pat` sequence. -/
def searchPats (ps : List Pat) (s : List Char) : Bool :=
  reSearchB (fun _ suf => matchPats ps suf) s

/-- `re.search` of `\b … \b` around a `Pat` sequence that begins and ends
with word characters. -/
def searchWordPats (ps : List Pat) (s : List Char) : Bool :=
  reSearchB
    (fun prev suf =>
      if boundaryBefore prev then
        match matchPats ps suf with
        | some rest => if boundaryAfter rest then some rest else none
        | none => none
      else none)
    s

/-- The space class used by `\s*` items. -/
def spChars : List Char := [' ', '\t', '\n', '\x0d', '\x0b', '\x0c']

/-- Python `str(int)` for the tenure interpolation. -/
def intToChars (n : ℤ) : List Char :=
  if n < 0 then '-' :: Nat.toDigits 10 n.natAbs else Nat.toDigits 10 n.toNat

namespace NewAuto

/-! ### Identifier parser (`src/New_auto_pf_selection.py`, lines 44-216) -/

/-- `re.findall(r'\((.*?)\)', s)`: content of a bracket pair (shortest,
`.` does not cross a newline), together with the text after it. -/
def innerTo : List Char → Option (List Char × List Char)
  | [] => none
  | ')' :: r => some ([], r)
  | '\n' :: _ => none
  | c :: r => (innerTo r).map (fun p => (c :: p.1, p.2))

/-- All bracket-enclosed segments, left to right (fuel-driven scan). -/
def bracketSegsFuel : ℕ → List Char → List (List Char)
  | 0, _ => []
  | _ + 1, [] => []
  | fuel + 1, '(' :: rest =>
    match innerTo rest with
    | some (seg, after) => seg :: bracketSegsFuel fuel after
    | none => bracketSegsFuel fuel rest
  | fuel + 1, _ :: rest => bracketSegsFuel fuel rest

def bracketSegments (s : List Char) : List (List Char) :=
  bracketSegsFuel s.length s

/-- `re.split(r'[^a-z0-9]+', seg)`, empty tokens removed (fuel-driven). -/
def tokenizeFuel : ℕ → List Char → List (List Char)
  | 0, _ => []
  | _ + 1, [] => []
  | fuel + 1, c :: cs =>
    if isTokenChar c then
      ((c :: cs).takeWhile isTokenChar) ::
        tokenizeFuel fuel ((c :: cs).dropWhile isTokenChar)
    else tokenizeFuel fuel cs

def tokenize (s : List Char) : List (List Char) :=
  tokenizeFuel s.length s

/-- Look a token up in `LTV_CODE_MAP`. -/
def lookupLtv (tok : List Char) : Option ℚ :=
  (LTV_CODE_MAP.find? (fun p => p.1.toList == tok)).map (fun p => p.2)

/-- First token of a list that is an LTV code. -/
def firstLtvToken : List (List Char) → Option ℚ
  | [] => none
  | t :: ts =>
    match lookupLtv t with
    | some v => some v
    | none => firstLtvToken ts

/-- First LTV hit over a list of bracket segments. -/
def firstLtvSegment : List (List Char) → Option ℚ
  | [] => none
  | seg :: segs =>
    match firstLtvToken (tokenize seg) with
    | some v => some v
    | none => firstLtvSegment segs

/-- `extract_ltv_from_code(refname)` (lines 44-59): bracket contents first,
then the whole identifier, tokenized on non-alphanumeric runs. -/
def extract_ltv_from_code (refname : List Char) : Option ℚ :=
  let s := lowerStr refname
  match firstLtvSegment (bracketSegments s) with
  | some v => some v
  | none => firstLtvToken (tokenize s)

/-- The `\s*M\b` tail of the tenure pattern. -/
def tenureMtail (r : List Char) : Option (List Char) :=
  match dropClass isSpaceChar r with
  | m :: rr => if chEqCI m 'M' && boundaryAfter rr then some rr else none
  | [] => none

/-- `\b(\d{1,2})\s*M\b` (case-insensitive) at the current position,
returning the captured number (two digits tried before one). -/
def matchTenureAt (prev : Option Char) (s : List Char) :
    Option (ℤ × List Char) :=
  if boundaryBefore prev then
    match s with
    | c1 :: r1 =>
      if c1.isDigit then
        match
          (match r1 with
           | c2 :: r2 =>
             if c2.isDigit then
               (tenureMtail r2).map
                 (fun rest => ((digitsToNat [c1, c2] : ℤ), rest))
             else none
           | [] => none)
        with
        | some x => some x
        | none => (tenureMtail r1).map (fun rest => ((digitsToNat [c1] : ℤ), rest))
      else none
    | [] => none
  else none

/-- `extract_tenure(refname)` (lines 61-63). -/
def extract_tenure (refname : List Char) : Option ℤ :=
  match reFind (fun prev s => (matchTenureAt prev s).map (fun x => x.2))
      [] none refname with
  | some (revPre, atM, _) =>
    -- re-run the matcher at the found position to read the captured value
    (matchTenureAt (revPre.head?) atM).map (fun x => x.1)
  | none => none

/-- `update_refname_tenure(refname, tenure)` (lines 115-116). -/
def update_refname_tenure (refname : List Char) (tenure : ℤ) : List Char :=
  subFirst (fun prev s => (matchTenureAt prev s).map (fun x => x.2))
    (intToChars tenure ++ ['M']) refname

/-- `PF\s*[-:]?\s*` lead-in of the fee patterns (case-insensitive). -/
def pfLeadIn (s : List Char) : Option (List Char) :=
  (matchLitCI ['p', 'f'] s).map (fun r1 =>
    let r2 := dropClass isSpaceChar r1
    let r3 := match r2 with
      | '-' :: t => t
      | ':' :: t => t
      | _ => r2
    dropClass isSpaceChar r3)

/-- `([0-9]+(?:\.[0-9]+)?)\s*%` with the captured value. -/
def numPercent (s : List Char) : Option (ℚ × List Char) :=
  (matchNumber s).bind (fun p =>
    match dropClass isSpaceChar p.2 with
    | '%' :: r => some (p.1, r)
    | _ => none)

/-- `PF\s*[-:]?\s*num\s*%` (the main `extract_pf` pattern, lines 67-71). -/
def matchPFfee (s : List Char) : Option (ℚ × List Char) :=
  (pfLeadIn s).bind numPercent

/-- `extract_pf(refname)` (lines 65-82): main pattern, then the first
percentage in the segment following the first `PF` token. -/
def extract_pf (refname : List Char) : Option ℚ :=
  match reFind (fun _ s => (matchPFfee s).map (fun x => x.2)) [] none refname with
  | some (_, atP, _) => (matchPFfee atP).map (fun x => x.1)
  | none =>
    match splitSecondCI ['p', 'f'] refname with
    | some seg => (findAllPercents seg.length seg).head?
    | none => none
where
  /-- `re.findall(r'([0-9]+(?:\.[0-9]+)?)\s*%', seg)` (fuel-driven). -/
  findAllPercents : ℕ → List Char → List ℚ
  | 0, _ => []
  | _ + 1, [] => []
  | fuel + 1, c :: cs =>
    match numPercent (c :: cs) with
    | some (v, rest) => v :: findAllPercents fuel rest
    | none => findAllPercents fuel cs

/-- `PF…num%\s*[-–—]\s*num%` (the `extract_pf_range` pattern, lines 89-93). -/
def matchPFrange (s : List Char) : Option ((ℚ × ℚ) × List Char) :=
  (pfLeadIn s).bind (fun r0 =>
    (numPercent r0).bind (fun p1 =>
      match dropClass isSpaceChar p1.2 with
      | d :: r2 =>
        if d = '-' || d = '–' || d = '—' then
          (numPercent (dropClass isSpaceChar r2)).map
            (fun p2 => ((p1.1, p2.1), p2.2))
        else none
      | [] => none))

/-- `extract_pf_range(refname)` (lines 84-104): strict pattern, then the
first two percentages after the first `PF` token. -/
def extract_pf_range (refname : List Char) : Option ℚ × Option ℚ :=
  match reFind (fun _ s => (matchPFrange s).map (fun x => x.2)) [] none refname with
  | some (_, atP, _) =>
    match (matchPFrange atP).map (fun x => x.1) with
    | some (a, b) => (some a, some b)
    | none => (none, none)
  | none =>
    match splitSecondCI ['p', 'f'] refname with
    | some seg =>
      match extract_pf.findAllPercents seg.length seg with
      | a :: b :: _ => (some a, some b)
      | _ => (none, none)
    | none => (none, none)

/-- `is_flexi_pf_refname(refname)` (lines 106-108). -/
def is_flexi_pf_refname (refname : List Char) : Bool :=
  match extract_pf_range refname with
  | (some a, some b) => decide (a ≠ b)
  | _ => false

/-- `([0-9]+(?:\.[0-9]+)?)%` with no space before `%` (`extract_opp`). -/
def numPercentTight (s : List Char) : Option (ℚ × List Char) :=
  (matchNumber s).bind (fun p =>
    match p.2 with
    | '%' :: r => some (p.1, r)
    | _ => none)

/-- `extract_opp(refname)` (lines 110-113): the first percentage in the text
before the first `PF` token. -/
def extract_opp (refname : List Char) : Option ℚ :=
  let parts := splitHeadCI ['p', 'f'] refname
  match reFind (fun _ s => (numPercentTight s).map (fun x => x.2)) [] none parts with
  | some (_, atP, _) => (numPercentTight atP).map (fun x => x.1)
  | none => none

/-- `re.search(r'\bPF\b', refname, re.IGNORECASE)` (line 571). -/
def has_pf_in_name (refname : List Char) : Bool :=
  reSearchB
    (fun prev s =>
      if boundaryBefore prev then
        match s with
        | p :: f :: r =>
          if chEqCI p 'P' && chEqCI f 'F' && boundaryAfter r then some r else none
        | _ => none
      else none)
    refname

/-- `extract_scheme_code(refname)` (lines 123-136): first token matching
`[se]\d+`, bracket contents prioritized. -/
def isSchemeCode (tok : List Char) : Bool :=
  match tok with
  | c :: rest => (c = 's' || c = 'e') && !rest.isEmpty && rest.all Char.isDigit
  | [] => false

def firstSchemeToken : List (List Char) → Option (List Char)
  | [] => none
  | t :: ts => if isSchemeCode t then some t else firstSchemeToken ts

def firstSchemeSegment : List (List Char) → Option (List Char)
  | [] => none
  | seg :: segs =>
    match firstSchemeToken (tokenize seg) with
    | some t => some t
    | none => firstSchemeSegment segs

def extract_scheme_code (refname : List Char) : Option (List Char) :=
  let s := lowerStr refname
  match firstSchemeSegment (bracketSegments s) with
  | some t => some t
  | none => firstSchemeToken (tokenize s)

/-- `extract_variant(refname)` (lines 139-145). -/
def extract_variant (refname : List Char) : Option String :=
  let s := lowerStr refname
  if containsTok "economy".toList s then some "economy"
  else if containsTok "silver".toList s then some "silver"
  else none

/-- The ticket-size bucket patterns of `extract_ts_bucket` (lines 148-165). -/
def spStar : Pat := .star spChars

def dashSet : Pat := .chs ['-', '–']

def tsLt6Pats : List (List Pat) :=
  [[.ch '<', spStar, .ch '3', spStar, .ch 'l'],
   [.ch '0', spStar, dashSet, spStar, .ch '3', spStar, .ch 'l'],
   [.ch '3', spStar, dashSet, spStar, .ch '6', spStar, .ch 'l']]

def tsGt6Pats : List (List Pat) :=
  [[.ch '6', spStar, dashSet, spStar, .ch '1', .ch '2', spStar, .ch 'l'],
   [.ch '1', .ch '2', spStar, dashSet, spStar, .ch '2', .ch '5', spStar, .ch 'l'],
   [.ch '1', .ch '2', spStar, .ch 'l', spStar, .ch '+'],
   [.ch '>', spStar, .ch '1', .ch '2', spStar, .ch 'l']]

def tsLegacyLtPats : List (List Pat) :=
  [[.ch '<', spStar, .ch '5', spStar, .ch 'l'],
   [.ch '<', spStar, .ch '6', spStar, .ch 'l']]

def tsLegacyGtPats : List (List Pat) :=
  [[.ch '>', spStar, .ch '5', spStar, .ch 'l'],
   [.ch '>', spStar, .ch '6', spStar, .ch 'l']]

/-- `extract_ts_bucket(refname)` (lines 148-165). -/
def extract_ts_bucket (refname : List Char) : String :=
  let s := lowerStr refname
  if tsLt6Pats.any (fun ps => searchPats ps s) then "<6L"
  else if tsGt6Pats.any (fun ps => searchPats ps s) then ">6L"
  else if tsLegacyLtPats.any (fun ps => searchPats ps s) then "<6L"
  else if tsLegacyGtPats.any (fun ps => searchPats ps s) then ">6L"
  else ">6L"

/-- The five alternatives of `has_fresh_takeover_keywords` (lines 168-178). -/
def ftoPats : List (List Pat) :=
  [[.ch 'f', .ch 'l', spStar, .star ['-', '/', ' '], .ch 't', .ch 'o'],
   [.ch 'f', .ch 'l', .ch 't', .ch 'o'],
   [.ch 'f', .ch 'r', .ch 'e', .ch 's', .ch 'h'],
   [.ch 't', .ch 'a', .ch 'k', .ch 'e', spStar, .opt ['-', ' '],
    .ch 'o', .ch 'v', .ch 'e', .ch 'r'],
   [.ch 't', .ch 'a', .ch 'k', .ch 'e', .ch 'o', .ch 'v', .ch 'e', .ch 'r']]

/-- `has_fresh_takeover_keywords(refname)` (lines 168-178).  The pattern
string in the source ends with a `|` (the final alternative was commented
out), so the compiled regex has a trailing empty alternative and
`re.search` always succeeds: the function is constantly `True`.  The five
real alternatives are kept for fidelity, followed by the empty one. -/
def has_fresh_takeover_keywords (refname : List Char) : Bool :=
  let s := lowerStr refname
  ftoPats.any (fun ps => searchWordPats ps s) || true

/-- `has_renewal_keywords(refname)` (lines 181-183). -/
def has_renewal_keywords (refname : List Char) : Bool :=
  let s := lowerStr refname
  searchWordPats
    [.ch 'r', .ch 'e', .ch 'n', .ch 'e', .ch 'w', .ch 'a', .ch 'l'] s ||
  searchWordPats
    [.ch 'r', .ch 'e', .ch 't', .ch 'e', .ch 'n', .ch 't', .ch 'i', .ch 'o',
     .ch 'n'] s

/-- Order-preserving de-duplication with a `seen` accumulator
(lines 202-208). -/
def dedupeKeepFirstAux [DecidableEq α] : List α → List α → List α
  | _, [] => []
  | seen, x :: xs =>
    if x ∈ seen then dedupeKeepFirstAux seen xs
    else x :: dedupeKeepFirstAux (x :: seen) xs

def dedupeKeepFirst [DecidableEq α] (l : List α) : List α :=
  dedupeKeepFirstAux [] l

/-- The process list of `extract_applicable_processes` before
de-duplication (lines 187-199). -/
def applicable_processes_raw (refname : List Char) : List String :=
  let processes : List String :=
    (if has_fresh_takeover_keywords refname then
      ["fresh-loan", "takeover-loan"] else []) ++
    (if has_renewal_keywords refname then ["renewal"] else [])
  let processes := if processes = [] then ["fresh-loan"] else processes
  if "release" ∈ processes then processes else processes ++ ["release"]

/-- `extract_applicable_processes(refname)` (lines 186-208). -/
def extract_applicable_processes (refname : List Char) : List String :=
  dedupeKeepFirst (applicable_processes_raw refname)

/-- `find_refname_keyword(refname)` (lines 211-216): the first of the four
keywords, in list order, occurring anywhere in the lowered identifier. -/
def find_refname_keyword (refname : List Char) : Option String :=
  let value := lowerStr refname
  if containsTok "fl to".toList value then some "fl to"
  else if containsTok "fresh".toList value then some "fresh"
  else if containsTok "takeover".toList value then some "takeover"
  else if containsTok "renewal".toList value then some "renewal"
  else none

/-- The applicable-process selection of the Compute loop (lines 636-645). -/
def loop_applicable_processes (refname : List Char) : List String :=
  match find_refname_keyword refname with
  | some k =>
    if k = "renewal" then ["renewal"]
    else if k ∈ (["fl to", "fresh", "takeover", "to"] : List String) then
      ["fresh-loan", "takeover-loan"]
    else extract_applicable_processes refname
  | none => extract_applicable_processes refname

/-- The description selection of the Compute loop (lines 638-652). -/
def loop_description (refname : List Char) : Option String :=
  match find_refname_keyword refname with
  | some k =>
    if k = "renewal" then some "RWL"
    else if k ∈ (["fl to", "fresh", "takeover", "to"] : List String) then
      some "FL TO"
    else loopDescriptionFallback refname
  | none => loopDescriptionFallback refname
where
  loopDescriptionFallback (refname : List Char) : Option String :=
    let aps := extract_applicable_processes refname
    if "renewal" ∈ aps ∧ aps.length = 1 then some "RWL"
    else if "fresh-loan" ∈ aps ∨ "takeover-loan" ∈ aps then some "FL TO"
    else none

/-- Membership of an optionally extracted scheme code in a code set
(`scheme_code in GROUP_SCHEME_CODES`; `None` is in no set). -/
def inCodes (codes : List String) : Option (List Char) → Bool
  | some t => codes.any (fun k => k.toList == t)
  | none => false

/-- `get_foreclosure_terms(refname, final_tenure)` (lines 219-253). -/
def get_foreclosure_terms (refname : List Char) (final_tenure : ℤ) :
    ℚ × ℤ :=
  let scheme_code := extract_scheme_code refname
  let variant := extract_variant refname
  let ts_bucket := extract_ts_bucket refname
  match variant with
  | none => (1, 3)
  | some v =>
    -- tenure buckets: 12 → 12; 6 and 7 → 6; any other tenure → 6
    let tenure_bucket : ℤ := if final_tenure = 12 then 12 else 6
    if inCodes GROUP_SCHEME_CODES scheme_code ∧ v = "economy" then
      if tenure_bucket = 12 then
        if ts_bucket = "<6L" then (3/2, 4) else (1, 4)
      else
        if ts_bucket = "<6L" then (3/2, 3) else (1, 3)
    else if inCodes GROUP_SCHEME_CODES scheme_code ∧ v = "silver" then
      if tenure_bucket = 12 then
        if ts_bucket = "<6L" then (1, 4) else (1/2, 4)
      else
        if ts_bucket = "<6L" then (1, 3) else (1/2, 3)
    else if inCodes E_SERIES_CODES scheme_code then
      if ts_bucket = "<6L" then (3/2, 3) else (1, 3)
    else (1, 3)

end NewAuto

/-! ### JSON documents

A parsed JSON value.  `json.loads` yields objects with unique keys in
insertion order, modelled by association lists; `d[k] = v` keeps the
position of an existing key and appends a new one. -/

inductive Json where
  | null
  | bool (b : Bool)
  | num (q : ℚ)
  | str (s : String)
  | arr (xs : List Json)
  | obj (kvs : List (String × Json))

namespace Json

/-- Python `d[k]` / `k in d` on a parsed object. -/
def getKey : List (String × Json) → String → Option Json
  | [], _ => none
  | (k, v) :: rest, key => if k = key then some v else getKey rest key

/-- Python dict assignment `d[k] = v`. -/
def setKey : List (String × Json) → String → Json → List (String × Json)
  | [], key, v => [(key, v)]
  | (k, w) :: rest, key, v =>
    if k = key then (key, v) :: rest else (k, w) :: setKey rest key v

/-- Python `d.pop(k)`. -/
def delKey : List (String × Json) → String → List (String × Json)
  | [], _ => []
  | (k, v) :: rest, key => if k = key then rest else (k, v) :: delKey rest key

/-- `isinstance(item, dict)`. -/
def isObjB : Json → Bool
  | .obj _ => true
  | _ => false

/-- `"interestRate" in item` for a list element. -/
def hasRateKey : Json → Bool
  | .obj kvs => (getKey kvs "interestRate").isSome
  | _ => false

end Json

namespace NewAuto

open Json

/-- The direct-match condition of `_find_slab_list` on a list node
(line 503-504): at least 3 elements, all objects, some with an
`interestRate` key. -/
def slabListCond (xs : List Json) : Bool :=
  decide (3 ≤ xs.length) && xs.all isObjB && xs.any hasRateKey

mutual
/-- `_find_slab_list(node)` (lines 494-510) as a functional zipper: the
list the Python function returns by reference, together with the function
rebuilding the whole document from a replacement for it (the caller mutates
the returned list in place).  Search order as in the source: an
`interestSlabs`-keyed list wins at an object, then the object's values in
order; at a list, the direct condition first, then the elements in order. -/
def slabLoc : Json → Option (List Json × (List Json → Json))
  | .obj kvs =>
    match getKey kvs "interestSlabs" with
    | some (.arr xs) =>
      some (xs, fun l => .obj (setKey kvs "interestSlabs" (.arr l)))
    | _ => (slabLocKVs kvs).map (fun p => (p.1, fun l => .obj (p.2 l)))
  | .arr xs =>
    if slabListCond xs then some (xs, fun l => .arr l)
    else (slabLocItems xs).map (fun p => (p.1, fun l => .arr (p.2 l)))
  | _ => none

def slabLocKVs :
    List (String × Json) →
    Option (List Json × (List Json → List (String × Json)))
  | [] => none
  | (k, v) :: rest =>
    match slabLoc v with
    | some p => some (p.1, fun l => (k, p.2 l) :: rest)
    | none => (slabLocKVs rest).map (fun p => (p.1, fun l => (k, v) :: p.2 l))

def slabLocItems : List Json → Option (List Json × (List Json → List Json))
  | [] => none
  | v :: rest =>
    match slabLoc v with
    | some p => some (p.1, fun l => p.2 l :: rest)
    | none => (slabLocItems rest).map (fun p => (p.1, fun l => v :: p.2 l))
end

/-- `_find_slab_list(node)`: just the found list. -/
def find_slab_list (node : Json) : Option (List Json) :=
  (slabLoc node).map (fun p => p.1)

/-- One `slab_list[i]["interestRate"] = float(value)` step (line 524); a
non-object element would raise `TypeError` in the source — unreachable for
the all-object lists in the claims' scope — and is left unchanged here. -/
def setRateAt (e : Json) (v : ℚ) : Json :=
  match e with
  | .obj kvs => .obj (setKey kvs "interestRate" (.num v))
  | e => e

/-- The patch loop `for i in range(min(3, len(slab_list), len(slabs)))`
(lines 521-524); the fuel starts at 3 and the two lists bound the count. -/
def patchRates : ℕ → List ℚ → List Json → List Json
  | 0, _, es => es
  | _ + 1, [], es => es
  | _ + 1, _ :: _, [] => []
  | k + 1, s :: ss, e :: es => setRateAt e (round2 s) :: patchRates k ss es

/-- `slab_list[-1]["toDay"] = tenure_days` on one element, guarded by
`isinstance(slab_list[-1], dict)` (lines 526-527). -/
def setToDayElem (days : ℤ) (e : Json) : Json :=
  match e with
  | .obj kvs => .obj (setKey kvs "toDay" (.num (days : ℚ)))
  | e => e

/-- `slab_list[-1]["toDay"] = tenure_days` (lines 526-527). -/
def setToDayLast (days : ℤ) : List Json → List Json
  | [] => []
  | [e] => [setToDayElem days e]
  | e :: es => e :: setToDayLast days es

/-- What the patch loop does to the element at index `i`: elements below
`min 3 (number of supplied slabs)` get their `interestRate` overwritten
with the rounded slab value, the others are untouched. -/
def ratePatchedElem (slabs : List ℚ) (i : ℕ) (e : Json) : Json :=
  match (if i < 3 then slabs.get? i else none) with
  | some s => setRateAt e (round2 s)
  | none => e

/-- The in-place patch applied to the found slab list (lines 521-527). -/
def patchSlabList (slabs : List ℚ) (days : ℤ) (l : List Json) : List Json :=
  setToDayLast days (patchRates 3 slabs l)

/-- Lines 531-535: when no (non-empty) slab list is found but the root is an
object with an `interestRate` key and at least one slab is supplied, the
root object itself is patched (its `toDay` only when already present). -/
def patchRootSlab (d : Json) (slabs : List ℚ) (days : ℤ) : Json :=
  match d, slabs with
  | .obj kvs, s :: _ =>
    if (getKey kvs "interestRate").isSome then
      let kvs1 := setKey kvs "interestRate" (.num (round2 s))
      let kvs2 :=
        if (getKey kvs1 "toDay").isSome then
          setKey kvs1 "toDay" (.num (days : ℚ))
        else kvs1
      .obj kvs2
    else d
  | _, _ => d

/-- `update_interest_json(json_str, slabs, tenure_days)` (lines 513-537) at
document level (`json.loads`/`dumps` abstracted; unparseable text is
returned unchanged by the source and has no counterpart here).
`if slab_list:` is Python truthiness, so an empty found list falls through
to the root fallback. -/
def update_interest_json (d : Json) (slabs : List ℚ) (days : ℤ) : Json :=
  match slabLoc d with
  | some (l, k) =>
    if l.isEmpty then patchRootSlab d slabs days
    else k (patchSlabList slabs days l)
  | none => patchRootSlab d slabs days

/-- `str(Decimal.quantize(Decimal("0.00")))`: two-decimal rendering. -/
def formatQ2 (q : ℚ) : List Char :=
  let n : ℤ := ⌊round2 q * 100⌋
  let a := n.natAbs
  let frac := if a % 100 < 10 then '0' :: Nat.toDigits 10 (a % 100)
              else Nat.toDigits 10 (a % 100)
  (if n < 0 then ['-'] else []) ++ Nat.toDigits 10 (a / 100) ++ '.' :: frac

/-- `update_charge_text(json_str, unsecure_pf, overall_pf)` (lines 356-364).
A parsed non-object document raises uncaught in the source (only
`json.loads` is inside the `try`); it is left unchanged here, out of the
claims' scope. -/
def update_charge_text (d : Json) (unsecure_pf overall_pf : ℚ) : Json :=
  match d with
  | .obj kvs =>
    let kvs1 := setKey kvs "secureProcessingFee" (.str "0%")
    let kvs2 := setKey kvs1 "unsecureProcessingFee"
      (.str ((formatQ2 unsecure_pf).asString ++ "%+GST"))
    .obj (setKey kvs2 "processingFee"
      (.str ((formatQ2 overall_pf).asString ++ "%+GST")))
  | d => d

/-- A JSON list of strings. -/
def strList (ss : List String) : Json := .arr (ss.map .str)

/-- `update_json_applicable_processes(json_str, aps)` (lines 367-375);
a non-object document is returned unchanged, as in the source. -/
def update_json_applicable_processes (d : Json) (aps : List String) : Json :=
  match d with
  | .obj kvs => .obj (setKey kvs "applicableProcesses" (strList aps))
  | d => d

/-- `update_bs2_charge_2(json_str, charge_value, backcalc_min, backcalc_max,
is_flexi)` (lines 377-400).  Blank or unparseable text, and a parsed
non-object, all become `{}` in the source. -/
def update_bs2_charge_2 (cell : Option Json)
    (charge_value backcalc_min backcalc_max : ℚ) (is_flexi : Bool) : Json :=
  let kvs0 : List (String × Json) :=
    match cell with
    | some (.obj kvs) => kvs
    | _ => []
  let kvs1 := setKey kvs0 "chargeValue" (.num (round2 charge_value))
  if is_flexi then
    let meta0 :=
      match getKey kvs1 "chargesMetaData" with
      | some (.obj m) => m
      | _ => []
    let meta1 := setKey meta0 "minPercentUnsecure" (.num (round2 backcalc_min))
    let meta2 := setKey meta1 "maxPercentUnsecure" (.num (round2 backcalc_max))
    .obj (setKey kvs1 "chargesMetaData" (.obj meta2))
  else
    let kvs2 := setKey kvs1 "chargeCalculationType" (.str "fixed-percentage")
    let kvs3 := setKey kvs2 "chargeType" (.str "processing-fee")
    let kvs4 := setKey kvs3 "percentageOn" (.str "loanamount")
    .obj (delKey kvs4 "chargesMetaData")

/-- The template of `update_foreclosure_charge` (lines 404-415). -/
def foreclosureTemplate : List (String × Json) :=
  [("name", .str "Foreclosure"),
   ("chargeType", .str "foreclosure"),
   ("chargeCalculationType", .str "fixed-percentage"),
   ("applicableProcesses", strList ["fresh-loan", "renewal", "release"]),
   ("chargeValue", .num 0),
   ("maxValue", .num 100000),
   ("cityId", .null),
   ("percentageOn", .str "loanamount"),
   ("chargesMetaData", .obj [("duration", .num 2)]),
   ("minValue", .num 999)]

/-- `update_foreclosure_charge(json_str, value, duration, aps)`
(lines 403-438): built from the template when blank/unparseable/non-object,
then a fixed set of fields is overwritten, other fields kept. -/
def update_foreclosure_charge (cell : Option Json)
    (foreclosure_unsecure_value : ℚ) (duration_months : ℤ)
    (aps : List String) : Json :=
  let kvs0 :=
    match cell with
    | some (.obj kvs) => kvs
    | _ => foreclosureTemplate
  let k1 := setKey kvs0 "name" (.str "Foreclosure")
  let k2 := setKey k1 "chargeType" (.str "foreclosure")
  let k3 := setKey k2 "chargeCalculationType" (.str "fixed-percentage")
  let k4 := setKey k3 "percentageOn" (.str "loanamount")
  let k5 := setKey k4 "maxValue" (.num 100000)
  let k6 := setKey k5 "minValue" (.num 999)
  let k7 := setKey k6 "cityId" .null
  let k8 := setKey k7 "applicableProcesses" (strList aps)
  let k9 := setKey k8 "chargeValue" (.num (round2 foreclosure_unsecure_value))
  let meta0 :=
    match getKey k9 "chargesMetaData" with
    | some (.obj m) => m
    | _ => []
  .obj (setKey k9 "chargesMetaData"
    (.obj (setKey meta0 "duration" (.num (duration_months : ℚ)))))

end NewAuto

namespace NewAuto

/-! ### Label-text patchers (lines 441-488) -/

/-- Python `str.strip()` (whitespace at both ends). -/
def stripWS (s : List Char) : List Char :=
  ((s.dropWhile (fun c => isSpaceChar c)).reverse.dropWhile
    (fun c => isSpaceChar c)).reverse

/-- `re.sub(r'\s+', ' ', s)`: collapse every whitespace run to one space. -/
def collapseSpaces : List Char → Bool → List Char
  | [], _ => []
  | c :: cs, lastWS =>
    if isSpaceChar c then
      if lastWS then collapseSpaces cs true
      else ' ' :: collapseSpaces cs true
    else c :: collapseSpaces cs false

/-- `\bFC(?:\s*[-:]?\s*\d+D)?\b` (case-insensitive, line 445): the optional
day-suffix group is tried greedily; when it (or its trailing boundary)
fails, the bare `FC` with a boundary after `C` matches instead. -/
def matchFCnorm (prev : Option Char) (s : List Char) : Option (List Char) :=
  if boundaryBefore prev then
    match s with
    | f :: c :: r =>
      if chEqCI f 'F' && chEqCI c 'C' then
        let long : Option (List Char) :=
          let r2 := dropClass isSpaceChar r
          let r3 := match r2 with
            | '-' :: t => t
            | ':' :: t => t
            | _ => r2
          let r4 := dropClass isSpaceChar r3
          if (r4.takeWhile Char.isDigit).isEmpty then none
          else
            match r4.dropWhile Char.isDigit with
            | d :: rr =>
              if chEqCI d 'D' && boundaryAfter rr then some rr else none
            | [] => none
        match long with
        | some rr => some rr
        | none => if boundaryAfter r then some r else none
      else none
    | _ => none
  else none

/-- `\bPF\s*[-:]?\s*[0-9]+(?:\.[0-9]+)?\s*%\s*` (case-insensitive, line 449):
the PF-token removal pattern (no trailing boundary; trailing spaces eaten). -/
def matchPFremove (prev : Option Char) (s : List Char) : Option (List Char) :=
  if boundaryBefore prev then
    match s with
    | p :: f :: r =>
      if chEqCI p 'P' && chEqCI f 'F' then
        let r2 := dropClass isSpaceChar r
        let r3 := match r2 with
          | '-' :: t => t
          | ':' :: t => t
          | _ => r2
        (matchNumber (dropClass isSpaceChar r3)).bind (fun pr =>
          match dropClass isSpaceChar pr.2 with
          | '%' :: r5 => some (dropClass isSpaceChar r5)
          | _ => none)
      else none
    | _ => none
  else none

/-- `\bFC\b` (case-insensitive). -/
def matchFCword (prev : Option Char) (s : List Char) : Option (List Char) :=
  if boundaryBefore prev then
    match s with
    | f :: c :: r =>
      if chEqCI f 'F' && chEqCI c 'C' && boundaryAfter r then some r else none
    | _ => none
  else none

/-- The `PF\s*[-:]?\s*num\s*%` search/sub pattern of lines 454-461 (no word
boundaries), as a position matcher. -/
def matchPFfeeAt (_prev : Option Char) (s : List Char) : Option (List Char) :=
  (matchPFfee s).map (fun x => x.2)

/-- `update_bs2_legal_name_pf_fc(text, pf_value, fc_duration_months,
has_pf_in_refname)` (lines 441-478). -/
def update_bs2_legal_name_pf_fc (text : List Char) (pf_value : Option ℚ)
    (fc_duration_months : ℤ) (has_pf_in_refname : Bool) : List Char :=
  let updated := stripWS text
  let updated := subAll matchFCnorm ['F', 'C'] updated
  let updated :=
    if !has_pf_in_refname then
      stripWS (collapseSpaces (subAll matchPFremove [] updated) false)
    else
      match pf_value with
      | some pv =>
        let pf_str := formatQ2 pv ++ ['%']
        if reSearchB matchPFfeeAt updated then
          subFirst matchPFfeeAt ("PF ".toList ++ pf_str) updated
        else if reSearchB matchFCword updated then
          subFirst matchFCword ("PF ".toList ++ pf_str ++ " FC".toList) updated
        else stripWS (updated ++ " PF ".toList ++ pf_str)
      | none => updated
  let updated :=
    if reSearchB matchFCword updated then updated
    else stripWS (updated ++ " FC".toList)
  let updated :=
    if fc_duration_months = 3 then
      subFirst matchFCword "FC 90D".toList updated
    else if fc_duration_months = 4 then
      subFirst matchFCword "FC 120D".toList updated
    else updated
  stripWS (collapseSpaces updated false)

/-- `\b(6M|7M|12M)\b` (case-sensitive, line 481). -/
def matchTermTokenAt (prev : Option Char) (s : List Char) :
    Option (List Char) :=
  if boundaryBefore prev then
    match s with
    | '6' :: 'M' :: r => if boundaryAfter r then some r else none
    | '7' :: 'M' :: r => if boundaryAfter r then some r else none
    | '1' :: '2' :: 'M' :: r => if boundaryAfter r then some r else none
    | _ => none
  else none

/-- `(th7\.si5|f8)` (line 483): alternatives in order at each position. -/
def matchEncTokenAt (_prev : Option Char) (s : List Char) :
    Option (List Char) :=
  match matchLit "th7.si5".toList s with
  | some r => some r
  | none => matchLit "f8".toList s

/-- `(48(?:\.00)?%|37\.65%)` (line 486): the optional `.00` group is greedy,
so `48.00%` is tried before `48%` at each position. -/
def matchPctTokenAt (_prev : Option Char) (s : List Char) :
    Option (List Char) :=
  match matchLit "48.00%".toList s with
  | some r => some r
  | none =>
    match matchLit "48%".toList s with
    | some r => some r
    | none => matchLit "37.65%".toList s

/-- The encoding choice of the Compute loop (line 718):
`"th7.si5" if final_tenure == 12 else "f8"`. -/
def legal_name_encoding (final_tenure : ℤ) : List Char :=
  if final_tenure = 12 then "th7.si5".toList else "f8".toList

/-- `update_bs2_legal_name(text, tenure, encoding)` (lines 480-488). -/
def update_bs2_legal_name (text : List Char) (tenure : ℤ)
    (encoding : List Char) : List Char :=
  let updated := subFirst matchTermTokenAt (intToChars tenure ++ ['M']) text
  if reSearchB matchEncTokenAt updated then
    subFirst matchEncTokenAt encoding updated
  else
    subFirst matchPctTokenAt encoding updated

/-! ### The Compute loop (lines 558-731) -/

/-- One spreadsheet row, with every optional column present (the realistic
sheet; pandas columns are batch-global).  Document cells are parsed JSON
(`none` = blank text); dashes of the column names become underscores. -/
structure Row where
  refName : List Char
  customerLtv : Option ℚ
  tenure : Option ℤ
  refno : List Char
  bs1_legalName : List Char
  bs1_ltv : Option ℚ
  overallInterestCalculation : Option Json
  bs1_addon_1 : Option Json
  bs2_addon_1 : Option Json
  bs2_calculation : Option Json
  description : Option String
  applicableProcesses : List Char
  chargeText : Option Json
  bs2_charge_2 : Option Json
  bs2_charge_3 : Option Json
  bs2_NoOfCharges : Option ℤ
  bs2_legalName : List Char

/-- The signature values the loop extracts before the guard
(lines 566-571). -/
structure Sig where
  overall_ltv : Option ℚ
  requested_tenure : Option ℤ
  monthly_opp : Option ℚ
  pf_min : Option ℚ
  pf_max : Option ℚ
  overall_pf : Option ℚ
  has_pf : Bool

/-- Lines 566-571: the per-row extraction. -/
def parseSig (refname : List Char) : Sig :=
  let pfr := extract_pf_range refname
  { overall_ltv := extract_ltv_from_code refname
    requested_tenure := extract_tenure refname
    monthly_opp := extract_opp refname
    pf_min := pfr.1
    pf_max := pfr.2
    overall_pf :=
      match pfr.2 with
      | some v => some v
      | none => extract_pf refname
    has_pf := has_pf_in_name refname }

/-- A slab tuple as the list passed to `update_interest_json`. -/
def tupleToList (t : ℚ × ℚ × ℚ) : List ℚ := [t.1, t.2.1, t.2.2]

/-- `",".join(applicable_processes)` (line 658). -/
def joinComma (ss : List String) : List Char :=
  (String.intercalate "," ss).toList

/-- The Compute-loop body after the mandatory-field guard (lines 576-729),
with the pre-extracted signature passed in.  `continue` at the zero
denominator (lines 632-633) becomes an early return of the partially
mutated row. -/
def computeCore (sig : Sig) (ltv : ℚ) (requested_tenure : ℤ) (opp : ℚ)
    (row : Row) : Row :=
  let row0 := { row with customerLtv := some ltv }
  let sd := decision_engine ltv opp requested_tenure
  let scheme := sd.1
  let final_tenure := sd.2
  let newRefName := update_refname_tenure row0.refName final_tenure
  let row1 := { row0 with
    tenure := some final_tenure
    refName := newRefName
    refno := newRefName
    bs1_legalName := ("Rupeek " ++ scheme).toList }
  let result := interest_engine scheme final_tenure ltv opp
  let tenure_days := get_tenure_days final_tenure
  let row2 := { row1 with
    bs1_ltv := some result.secure_ltv
    overallInterestCalculation := row1.overallInterestCalculation.map
      (fun d => update_interest_json d (tupleToList result.overall_slabs) tenure_days)
    bs1_addon_1 := row1.bs1_addon_1.map
      (fun d => update_interest_json d (tupleToList result.secure_slabs) tenure_days)
    bs2_addon_1 := row1.bs2_addon_1.map
      (fun d => update_interest_json d (tupleToList result.unsecure_slabs) tenure_days)
    bs2_calculation := row1.bs2_calculation.map
      (fun d => update_interest_json d (tupleToList result.unsecure_slabs) tenure_days) }
  let denominator := denominator_of result.secure_ltv ltv
  if denominator = 0 then row2
  else
    let applicable_processes := loop_applicable_processes row2.refName
    let description_value := loop_description row2.refName
    let row3 := { row2 with
      description :=
        match description_value with
        | some dv => some dv
        | none => row2.description
      applicableProcesses := joinComma applicable_processes }
    let row4 :=
      match (if sig.has_pf then sig.overall_pf else none) with
      | some overall_pf =>
        let min_pf_input := sig.pf_min.getD overall_pf
        let max_pf_input := sig.pf_max.getD overall_pf
        let min_unsecure_pf := unsecure_pf_backcalc min_pf_input denominator
        let max_unsecure_pf := unsecure_pf_backcalc max_pf_input denominator
        let refname_lower := lowerStr row3.refName
        let is_flexi := is_flexi_pf_refname row3.refName ||
          containsTok "flexipf".toList refname_lower ||
          containsTok "flexi pf".toList refname_lower ||
          containsTok "flexi-pf".toList refname_lower
        let charge_pf_value := if is_flexi then max_unsecure_pf else min_unsecure_pf
        let charge_text_overall_pf := if is_flexi then max_pf_input else min_pf_input
        let charge_text_unsecure_pf := if is_flexi then max_unsecure_pf else min_unsecure_pf
        { row3 with
          chargeText := row3.chargeText.map
            (fun d => update_charge_text d charge_text_unsecure_pf charge_text_overall_pf)
          bs2_charge_2 := some (update_json_applicable_processes
            (update_bs2_charge_2 row3.bs2_charge_2 charge_pf_value
              min_unsecure_pf max_unsecure_pf is_flexi)
            applicable_processes) }
      | none => { row3 with chargeText := some (.obj []) }
    let fc := get_foreclosure_terms row4.refName final_tenure
    let fc_unsecure_value := unsecure_pf_backcalc fc.1 denominator
    let row5 :=
      if sig.has_pf then
        { row4 with bs2_charge_3 := some (update_foreclosure_charge
            row4.bs2_charge_3 fc_unsecure_value fc.2 applicable_processes) }
      else
        { row4 with
          bs2_charge_2 := some (update_foreclosure_charge
            row4.bs2_charge_2 fc_unsecure_value fc.2 applicable_processes)
          bs2_charge_3 := some (.obj []) }
    let row6 := { row5 with bs2_NoOfCharges := some (if sig.has_pf then 3 else 2) }
    let encoding := legal_name_encoding final_tenure
    let updated_legal_name := update_bs2_legal_name row6.bs2_legalName final_tenure encoding
    { row6 with bs2_legalName := (update_bs2_legal_name_pf_fc
        updated_legal_name (some fc_unsecure_value) fc.2 sig.has_pf) }

/-- One iteration of the Compute loop (lines 562-729): extraction, the skip
guard `if not all([overall_ltv, requested_tenure, monthly_opp]): continue`
— Python truthiness, so a present-but-zero value also skips — then the
body. -/
def computeRow (row : Row) : Row :=
  let sig := parseSig row.refName
  match sig.overall_ltv, sig.requested_tenure, sig.monthly_opp with
  | some ltv, some t, some opp =>
    if ltv = 0 ∨ t = 0 ∨ opp = 0 then row
    else computeCore sig ltv t opp row
  | _, _, _ => row

/-- The whole Compute pass over the sheet: rows are processed
independently, none aborts the batch. -/
def computeBatch (rows : List Row) : List Row := rows.map computeRow

end NewAuto

/-! ### Spec-side definitions (from the natural-language specification,
for comparison with the translated code) -/

/-- Spec: "Secured-LTV threshold: 60 when requestedTerm = 12, else 67." -/
def thresholdSpec (requestedTerm : ℤ) : ℚ :=
  if requestedTerm = 12 then 60 else 67

/-- Spec: "if requestedTerm ∈ 6,7, normalize finalTerm to 7,
else finalTerm = requestedTerm". -/
def normalizeTermSpec (requestedTerm : ℤ) : ℤ :=
  if requestedTerm = 6 ∨ requestedTerm = 7 then 7 else requestedTerm

/-- Spec: "minBand = secured weight × 9.95 / 12", secured weight =
threshold / overallLtv, rounded to 2 decimals. -/
def minBandSpec (t : ℤ) (ltv : ℚ) : ℚ :=
  round2 ((thresholdSpec t / ltv) * (995/100) / 12)

/-- Spec: "maxBand = (secured weight × 9.95 + unsecured weight ×
unsecuredSlab1) / 12", unsecured weight = 1 − secured weight,
unsecuredSlab1 = 48.00 (terms 6/7) or 37.65 (term 12), rounded. -/
def maxBandSpec (t : ℤ) (ltv : ℚ) : ℚ :=
  round2 (((thresholdSpec t / ltv) * (995/100) +
    (1 - thresholdSpec t / ltv) * (if t = 12 then 3765/100 else 48)) / 12)

/-- Spec: "unsecuredFee(bound) = statedFeeBound / denominator, rounded 2dp"
with denominator = 1 − securedLtvBasis/overallLtv. -/
def unsecuredFeeSpec (bound basis ltv : ℚ) : ℚ :=
  round2 (bound / (1 - basis / ltv))

/-- The character preceding position `j` of a scan that started with
previous character `prev` (used to state the `\b`-aware leftmost-match
property of `reFind`). -/
def prevAt (prev : Option Char) (s : List Char) : ℕ → Option Char
  | 0 => prev
  | j + 1 => s.get? j

/-! ### Concrete sample data for closed statements -/

/-- A concrete row whose identifier has all three mandatory fields present
but a stated rate of 0% (Python-falsy). -/
def zeroRateRow : NewAuto.Row :=
  { refName := "(E0) 12M 0% PF 1.00%".toList
    customerLtv := none
    tenure := none
    refno := []
    bs1_legalName := []
    bs1_ltv := none
    overallInterestCalculation := some (.obj [("interestRate", .num 5)])
    bs1_addon_1 := none
    bs2_addon_1 := none
    bs2_calculation := none
    description := none
    applicableProcesses := []
    chargeText := some (.obj [])
    bs2_charge_2 := some (.obj [("chargeValue", .num 1)])
    bs2_charge_3 := none
    bs2_NoOfCharges := none
    bs2_legalName := "Gold 12M 48% plan".toList }

/-- A plain concrete row for witnesses. -/
def plainRow : NewAuto.Row :=
  { refName := "(S5) 12M 1% PF 1.00%".toList
    customerLtv := none
    tenure := none
    refno := []
    bs1_legalName := []
    bs1_ltv := none
    overallInterestCalculation := some .null
    bs1_addon_1 := none
    bs2_addon_1 := none
    bs2_calculation := none
    description := some "d"
    applicableProcesses := ['x']
    chargeText := some (.obj [])
    bs2_charge_2 := some (.obj [])
    bs2_charge_3 := none
    bs2_NoOfCharges := none
    bs2_legalName := "Gold 12M 48% plan".toList }

/-- An empty signature for witnesses of the post-guard stage. -/
def emptySig : NewAuto.Sig :=
  { overall_ltv := none
    requested_tenure := none
    monthly_opp := none
    pf_min := none
    pf_max := none
    overall_pf := none
    has_pf := false }

/-- A three-element slab list and document for the slab-patch witnesses. -/
def wList : List Json :=
  [.obj [("interestRate", .num 9), ("toDay", .num 30), ("other", .str "x")],
   .obj [("interestRate", .num 9), ("toDay", .num 60)],
   .obj [("fromDay", .num 61), ("toDay", .num 90)]]

def wDoc : Json := .obj [("keep", .bool true), ("interestSlabs", .arr wList)]

/-! ### Claim C1 -/

theorem decision_engine_low_ltv (ltv r : ℚ) (t : ℤ)
    (h : ltv ≤ thresholdSpec t) :
    NewAuto.decision_engine ltv r t = ("Royal", normalizeTermSpec t) := by
  unfold NewAuto.decision_engine normalizeTermSpec
  unfold thresholdSpec at h
  split at h
  · simp only [if_pos ‹t = 12›]
    rw [if_pos h]
    have h6 : ¬(t = 6 ∨ t = 7) := by omega
    rw [if_neg h6, if_neg h6]
  · simp only [if_neg ‹¬t = 12›]
    rw [if_pos h]
    by_cases h67 : t = 6 ∨ t = 7
    · rw [if_pos h67, if_pos h67]
    · rw [if_neg h67, if_neg h67]

theorem decision_engine_band (ltv r : ℚ) (t : ℤ)
    (h : thresholdSpec t < ltv) :
    (minBandSpec t ltv ≤ r ∧ r ≤ maxBandSpec t ltv →
      NewAuto.decision_engine ltv r t = ("Delight", t)) ∧
    (¬(minBandSpec t ltv ≤ r ∧ r ≤ maxBandSpec t ltv) →
      NewAuto.decision_engine ltv r t = ("Royal", normalizeTermSpec t)) := by
  have hpos : (0:ℚ) < ltv := by
    unfold thresholdSpec at h
    split at h <;> linarith
  have hne : ltv ≠ 0 := ne_of_gt hpos
  have hthr : ¬ ltv ≤ thresholdSpec t := not_le.mpr h
  have hband : ∀ s u : ℚ,
      (ltv - s) / ltv * u = (1 - s / ltv) * u := by
    intro s u
    field_simp
  unfold NewAuto.decision_engine minBandSpec maxBandSpec normalizeTermSpec
  unfold thresholdSpec at hthr h ⊢
  by_cases h12 : t = 12
  · simp only [if_pos h12] at hthr ⊢
    rw [if_neg hthr]
    rw [hband 60 (3765/100)]
    constructor
    · intro hin
      rw [if_pos hin]
    · intro hout
      rw [if_neg hout]
      have h6 : ¬(t = 6 ∨ t = 7) := by omega
      rw [if_neg h6, if_neg h6]
  · simp only [if_neg h12] at hthr ⊢
    rw [if_neg hthr]
    rw [hband 67 48]
    constructor
    · intro hin
      rw [if_pos hin]
    · intro hout
      rw [if_neg hout]
      by_cases h67 : t = 6 ∨ t = 7
      · rw [if_pos h67, if_pos h67]
      · rw [if_neg h67, if_neg h67]

theorem decisionpy_keeps_term (ltv r : ℚ) (t : ℤ) :
    (DecisionPy.decision_engine ltv r t).2 = t := by
  simp only [DecisionPy.decision_engine]
  split_ifs <;> rfl

/-- C1 (amended): in `New_auto_pf_selection.py`, `decision_engine` uses the
secured-LTV threshold 60 when the requested term is 12 and 67 otherwise;
whenever `overallLtv ≤ threshold` it returns the secondary tier ("Royal")
for every monthly rate — no rate-band check — with the final term
normalized 6/7 → 7; the same normalization applies when the rate-band check
fails, and the primary tier ("Delight") keeps the requested term.  In
`Decision.py`, however, `decision_engine` never normalizes: the final term
equals the requested term in every branch. -/
theorem C1_thm (ltv r : ℚ) (t : ℤ) :
    (ltv ≤ thresholdSpec t →
      NewAuto.decision_engine ltv r t = ("Royal", normalizeTermSpec t)) ∧
    (thresholdSpec t < ltv →
      (minBandSpec t ltv ≤ r ∧ r ≤ maxBandSpec t ltv →
        NewAuto.decision_engine ltv r t = ("Delight", t)) ∧
      (¬(minBandSpec t ltv ≤ r ∧ r ≤ maxBandSpec t ltv) →
        NewAuto.decision_engine ltv r t = ("Royal", normalizeTermSpec t))) ∧
    (DecisionPy.decision_engine ltv r t).2 = t :=
  ⟨fun h => decision_engine_low_ltv ltv r t h,
   fun h => decision_engine_band ltv r t h,
   decisionpy_keeps_term ltv r t⟩

/-- C1 counterexample: the claim says `decide` normalizes the final term to 7
for requested terms 6 and 7, but the `Decision.py` revision of
`decision_engine` (also cited by the claim) returns term 6 unchanged at
`overallLtv = 60`, `monthlyRate = 1`, `requestedTerm = 6`. -/
theorem C1_cex :
    (DecisionPy.decision_engine 60 1 6).2 = 6 ∧
    (DecisionPy.decision_engine 60 1 6).2 ≠ 7 ∧
    (NewAuto.decision_engine 60 1 6).2 = 7 := by
  refine ⟨?_, ?_, ?_⟩ <;> norm_num [DecisionPy.decision_engine, NewAuto.decision_engine]

/-- C1 witness: the amended theorem applied at `ltv = 60`, rate 1, term 12
(the threshold boundary is inclusive) and at `ltv = 80`, rate 1, term 6. -/
theorem C1_witness :
    NewAuto.decision_engine 60 1 12 = ("Royal", 12) ∧
    NewAuto.decision_engine 80 1 6 = ("Delight", 6) := by
  constructor
  · have h := (C1_thm 60 1 12).1 (by norm_num [thresholdSpec])
    simpa [normalizeTermSpec] using h
  · have h := ((C1_thm 80 1 6).2.1 (by norm_num [thresholdSpec])).1
    apply h
    constructor
    · show minBandSpec 6 80 ≤ 1
      decide
    · show (1:ℚ) ≤ maxBandSpec 6 80
      decide

/-! ### Claim C2 -/

theorem weights_sum (t : ℤ) (ltv : ℚ) (h : ltv ≠ 0) :
    NewAuto.secure_weight t ltv + NewAuto.unsecure_weight t ltv = 1 := by
  unfold NewAuto.secure_weight NewAuto.unsecure_weight
  field_simp

theorem denominator_eq_unsecure_weight (t : ℤ) (ltv : ℚ) (h : ltv ≠ 0) :
    NewAuto.denominator_of (NewAuto.interest_secure_ltv t) ltv
      = NewAuto.unsecure_weight t ltv := by
  unfold NewAuto.denominator_of NewAuto.unsecure_weight
  field_simp

theorem secure_weight_nonneg (t : ℤ) (ltv : ℚ) (h : 0 < ltv) :
    0 ≤ NewAuto.secure_weight t ltv := by
  unfold NewAuto.secure_weight
  apply div_nonneg _ (le_of_lt h)
  unfold NewAuto.interest_secure_ltv
  split_ifs <;> norm_num

theorem unsecure_weight_nonneg_iff (t : ℤ) (ltv : ℚ) (h : 0 < ltv) :
    0 ≤ NewAuto.unsecure_weight t ltv ↔ NewAuto.interest_secure_ltv t ≤ ltv := by
  unfold NewAuto.unsecure_weight
  rw [div_nonneg_iff]
  constructor
  · rintro (⟨h1, _⟩ | ⟨_, h2⟩)
    · linarith
    · linarith
  · intro hle
    exact Or.inl ⟨by linarith, le_of_lt h⟩

/-- C2 (amended): the secured weight `securedLtvBasis/overallLtv` and the
unsecured weight `(overallLtv - securedLtvBasis)/overallLtv` used by the rate
engine — the latter coinciding with the back-calculation denominator
`1 - securedLtvBasis/overallLtv` — always sum to 1, and the secured weight is
always non-negative; but the unsecured weight is non-negative only when the
basis does not exceed the overall LTV.  Over the five-code LTV table and
final terms 6, 7, 12 this fails exactly for LTV code `si5` (65) at terms 6
and 7, so the claimed invariant does not hold for every processed record. -/
theorem C2_thm :
    (∀ (t : ℤ) (ltv : ℚ), ltv ≠ 0 →
      NewAuto.secure_weight t ltv + NewAuto.unsecure_weight t ltv = 1 ∧
      NewAuto.denominator_of (NewAuto.interest_secure_ltv t) ltv
        = NewAuto.unsecure_weight t ltv) ∧
    (∀ (t : ℤ) (ltv : ℚ), 0 < ltv →
      0 ≤ NewAuto.secure_weight t ltv ∧
      (0 ≤ NewAuto.unsecure_weight t ltv ↔
        NewAuto.interest_secure_ltv t ≤ ltv)) ∧
    (∀ t ∈ ([6, 7, 12] : List ℤ), ∀ p ∈ NewAuto.LTV_CODE_MAP,
      (NewAuto.unsecure_weight t p.2 < 0 ↔ p.2 = 65 ∧ t ≠ 12)) := by
  refine ⟨fun t ltv h => ⟨weights_sum t ltv h, denominator_eq_unsecure_weight t ltv h⟩,
    fun t ltv h => ⟨secure_weight_nonneg t ltv h, unsecure_weight_nonneg_iff t ltv h⟩, ?_⟩
  intro t ht p hp
  fin_cases ht <;> fin_cases hp <;>
    norm_num [NewAuto.unsecure_weight, NewAuto.interest_secure_ltv]

/-- C2 counterexample: `si5` maps to overall LTV 65 in the five-code table, a
record with requested term 6 is normalized to final term 7 by the decision
engine, and at final term 7 the rate engine's unsecured weight
`(65 - 66)/65` is negative — refuting the claimed non-negativity. -/
theorem C2_cex :
    ("si5", (65 : ℚ)) ∈ NewAuto.LTV_CODE_MAP ∧
    (NewAuto.decision_engine 65 1 6).2 = 7 ∧
    NewAuto.unsecure_weight 7 65 < 0 := by
  refine ⟨by norm_num [NewAuto.LTV_CODE_MAP], ?_,
    by norm_num [NewAuto.unsecure_weight, NewAuto.interest_secure_ltv]⟩
  norm_num [NewAuto.decision_engine]

/-- C2 witness: the amended theorem at term 12, LTV 80 (weights sum to 1 and
are both non-negative there). -/
theorem C2_witness :
    NewAuto.secure_weight 12 80 + NewAuto.unsecure_weight 12 80 = 1 ∧
    0 ≤ NewAuto.unsecure_weight 12 80 := by
  refine ⟨(C2_thm.1 12 80 (by norm_num)).1, ?_⟩
  rw [(C2_thm.2.1 12 80 (by norm_num)).2]
  norm_num [NewAuto.interest_secure_ltv]

/-! ### Claim C3 -/

/-- C3 (confirmed): the back-calculated unsecured fee is
`statedFeeBound / (1 - securedLtvBasis/overallLtv)` rounded to 2 decimals,
computed independently for the min and max bounds (equal when the identifier
declared a single fee, i.e. when no range was parsed); and at
`statedFee = 1.00`, basis 60, overall LTV 80 the denominator is 0.25 and the
unsecured fee is 4.00. -/
theorem C3_thm (pfMin pfMax : Option ℚ) (overallPf basis ltv : ℚ) :
    (NewAuto.pf_backcalc_pair pfMin pfMax overallPf
        (NewAuto.denominator_of basis ltv)).1
      = unsecuredFeeSpec (pfMin.getD overallPf) basis ltv ∧
    (NewAuto.pf_backcalc_pair pfMin pfMax overallPf
        (NewAuto.denominator_of basis ltv)).2
      = unsecuredFeeSpec (pfMax.getD overallPf) basis ltv ∧
    (pfMin = none → pfMax = none →
      (NewAuto.pf_backcalc_pair pfMin pfMax overallPf
          (NewAuto.denominator_of basis ltv)).1
        = (NewAuto.pf_backcalc_pair pfMin pfMax overallPf
            (NewAuto.denominator_of basis ltv)).2) ∧
    NewAuto.denominator_of 60 80 = 1/4 ∧
    NewAuto.unsecure_pf_backcalc 1 (NewAuto.denominator_of 60 80) = 4 := by
  refine ⟨rfl, rfl, ?_, ?_, ?_⟩
  · rintro rfl rfl
    rfl
  · norm_num [NewAuto.denominator_of]
  · decide

/-- C3 witness: the theorem at a single stated fee of 1.00 with basis 60 and
overall LTV 80 — both bounds back-calculate to the same value. -/
theorem C3_witness :
    (NewAuto.pf_backcalc_pair none none 1 (NewAuto.denominator_of 60 80)).1
      = (NewAuto.pf_backcalc_pair none none 1 (NewAuto.denominator_of 60 80)).2 :=
  (C3_thm none none 1 60 80).2.2.1 rfl rfl

/-! ### Claim C4 -/

/-- C4 (confirmed): the unsecured slabs returned for the unsecured documents
are the flat display tuple (48/48/48 for terms 6-7, 37.65/37.65/37.65 for
term 12), which differs from the blend tuple; and the overall slab-2 resp.
slab-3 is `securedWeight × securedSlab2 + unsecuredWeight × blendSlab2`
(blend middle values 46.00 resp. 32.00) resp.
`securedWeight × securedSlab3 + unsecuredWeight × blendSlab3` (lines
343-346), each rounded to 2 decimals. -/
theorem C4_thm (scheme : String) (t : ℤ) (ltv opp : ℚ) :
    ((t = 6 ∨ t = 7) →
      (NewAuto.interest_engine scheme t ltv opp).unsecure_slabs
        = (48, 48, 48)) ∧
    (t = 12 →
      (NewAuto.interest_engine scheme t ltv opp).unsecure_slabs
        = (3765/100, 3765/100, 3765/100)) ∧
    NewAuto.UNSECURE_JSON_6_7 ≠ NewAuto.UNSECURE_CALC_6_7 ∧
    NewAuto.UNSECURE_JSON_12 ≠ NewAuto.UNSECURE_CALC_12 ∧
    (NewAuto.interest_engine scheme t ltv opp).overall_slabs.2.1
      = round2 (NewAuto.secure_weight t ltv *
          (if scheme = "Delight" then NewAuto.SECURE_S2_DELIGHT
           else NewAuto.SECURE_S2_ROYAL) +
        NewAuto.unsecure_weight t ltv *
          (if t = 12 then NewAuto.UNSECURE_CALC_12
           else NewAuto.UNSECURE_CALC_6_7).2.1) ∧
    (NewAuto.interest_engine scheme t ltv opp).overall_slabs.2.2
      = round2 (NewAuto.secure_weight t ltv * NewAuto.secure_slab3 t +
        NewAuto.unsecure_weight t ltv *
          (if t = 12 then NewAuto.UNSECURE_CALC_12
           else NewAuto.UNSECURE_CALC_6_7).2.2) := by
  refine ⟨?_, ?_,
    by norm_num [NewAuto.UNSECURE_JSON_6_7, NewAuto.UNSECURE_CALC_6_7, Prod.ext_iff],
    by norm_num [NewAuto.UNSECURE_JSON_12, NewAuto.UNSECURE_CALC_12, Prod.ext_iff],
    ?_, ?_⟩
  · intro h
    have h12 : ¬ t = 12 := by omega
    simp [NewAuto.interest_engine, h12, NewAuto.UNSECURE_JSON_6_7]
  · intro h
    simp [NewAuto.interest_engine, h, NewAuto.UNSECURE_JSON_12]
  · rfl
  · rfl

/-- C4 witness: the theorem applied at term 7 and at term 12. -/
theorem C4_witness :
    (NewAuto.interest_engine "Delight" 7 80 1).unsecure_slabs = (48, 48, 48) ∧
    (NewAuto.interest_engine "Royal" 12 80 1).unsecure_slabs
      = (3765/100, 3765/100, 3765/100) :=
  ⟨(C4_thm "Delight" 7 80 1).1 (Or.inr rfl), (C4_thm "Royal" 12 80 1).2.1 rfl⟩

/-! ### Claim C5 -/

theorem mem_dedupeKeepFirstAux [DecidableEq α] (l : List α) :
    ∀ (seen : List α) (x : α),
    x ∈ NewAuto.dedupeKeepFirstAux seen l ↔ x ∈ l ∧ x ∉ seen := by
  induction l with
  | nil => intro seen x; simp [NewAuto.dedupeKeepFirstAux]
  | cons y ys ih =>
    intro seen x
    simp only [NewAuto.dedupeKeepFirstAux]
    split_ifs with hy
    · rw [ih]
      constructor
      · rintro ⟨h1, h2⟩
        exact ⟨List.mem_cons_of_mem _ h1, h2⟩
      · rintro ⟨h1, h2⟩
        rcases List.mem_cons.mp h1 with rfl | h1
        · exact absurd hy h2
        · exact ⟨h1, h2⟩
    · simp only [List.mem_cons, ih]
      constructor
      · rintro (rfl | ⟨h1, h2⟩)
        · exact ⟨Or.inl rfl, hy⟩
        · exact ⟨Or.inr h1, fun hc => h2 (Or.inr hc)⟩
      · rintro ⟨h1, h2⟩
        by_cases hxy : x = y
        · exact Or.inl hxy
        · rcases h1 with rfl | h1
          · exact Or.inl rfl
          · exact Or.inr ⟨h1, fun hc => hc.elim hxy h2⟩

theorem nodup_dedupeKeepFirstAux [DecidableEq α] (l : List α) :
    ∀ seen : List α, (NewAuto.dedupeKeepFirstAux seen l).Nodup := by
  induction l with
  | nil => intro seen; simp [NewAuto.dedupeKeepFirstAux]
  | cons y ys ih =>
    intro seen
    simp only [NewAuto.dedupeKeepFirstAux]
    split_ifs with hy
    · exact ih seen
    · refine List.nodup_cons.mpr ⟨fun hc => ?_, ih (y :: seen)⟩
      exact ((mem_dedupeKeepFirstAux ys (y :: seen) y).mp hc).2
        (List.mem_cons_self y seen)

theorem sublist_dedupeKeepFirstAux [DecidableEq α] (l : List α) :
    ∀ seen : List α, (NewAuto.dedupeKeepFirstAux seen l).Sublist l := by
  induction l with
  | nil => intro seen; simp [NewAuto.dedupeKeepFirstAux]
  | cons y ys ih =>
    intro seen
    simp only [NewAuto.dedupeKeepFirstAux]
    split_ifs with hy
    · exact (ih seen).trans (List.sublist_cons_self y ys)
    · exact List.Sublist.cons₂ y (ih (y :: seen))

theorem release_mem_raw (refname : List Char) :
    "release" ∈ NewAuto.applicable_processes_raw refname := by
  simp only [NewAuto.applicable_processes_raw]
  split_ifs with h1 h2 h3 h4 h5 <;> first
    | assumption
    | simp_all

/-- C5 (amended): the resolver `extract_applicable_processes` always yields
a list containing "release" (appended when absent), duplicate-free, and
preserving first-seen order — it is a sublist of the accumulated raw list
with exactly its members.  The Compute loop, however, bypasses the resolver
when a priority keyword is found by `find_refname_keyword`, and those
branches omit "release" (see the counterexample). -/
theorem C5_thm (refname : List Char) :
    "release" ∈ NewAuto.extract_applicable_processes refname ∧
    (NewAuto.extract_applicable_processes refname).Nodup ∧
    (NewAuto.extract_applicable_processes refname).Sublist
      (NewAuto.applicable_processes_raw refname) ∧
    (∀ x, x ∈ NewAuto.extract_applicable_processes refname ↔
      x ∈ NewAuto.applicable_processes_raw refname) := by
  refine ⟨?_, nodup_dedupeKeepFirstAux _ _, sublist_dedupeKeepFirstAux _ _, ?_⟩
  · exact (mem_dedupeKeepFirstAux _ _ _).mpr
      ⟨release_mem_raw refname, by simp⟩
  · intro x
    rw [NewAuto.extract_applicable_processes, NewAuto.dedupeKeepFirst,
      mem_dedupeKeepFirstAux]
    simp

/-- C5 counterexample: for the identifier "FRESH 12M 1% PF 1%" the Compute
loop's priority branch produces the applicable-process set without
"release", refuting the claim that the set produced for every record
contains it. -/
theorem C5_cex :
    NewAuto.loop_applicable_processes ("FRESH 12M 1% PF 1%".toList)
      = ["fresh-loan", "takeover-loan"] ∧
    "release" ∉ NewAuto.loop_applicable_processes ("FRESH 12M 1% PF 1%".toList) := by
  constructor
  · decide
  · decide

/-! ### Claim C8 -/

theorem eseries_not_group (code : List Char)
    (h : NewAuto.inCodes NewAuto.E_SERIES_CODES (some code) = true) :
    NewAuto.inCodes NewAuto.GROUP_SCHEME_CODES (some code) = false := by
  simp only [NewAuto.inCodes, NewAuto.E_SERIES_CODES, List.any_eq_true] at h
  obtain ⟨k, hk, hbeq⟩ := h
  have hcode : code = k.toList := (eq_of_beq hbeq).symm
  subst hcode
  fin_cases hk <;> decide

/-- C8 (confirmed): for an identifier whose scheme code lies in the e-series
set and whose variant resolves (to either label), the foreclosure lookup is
a deterministic pair keyed only by the ticket bucket — (1.50, 3) for the
small bucket, (1.00, 3) otherwise — independent of the variant label and of
the term; an absent variant, an unresolved scheme code, and a code in
neither set all yield the default (1.00, 3); the lookup is total, never an
error. -/
theorem C8_thm (refname : List Char) (t : ℤ) :
    (∀ code, NewAuto.extract_scheme_code refname = some code →
      NewAuto.inCodes NewAuto.E_SERIES_CODES (some code) = true →
      ∀ v, NewAuto.extract_variant refname = some v →
      NewAuto.get_foreclosure_terms refname t =
        (if NewAuto.extract_ts_bucket refname = "<6L" then ((3/2 : ℚ), (3 : ℤ))
         else (1, 3))) ∧
    (NewAuto.extract_variant refname = none →
      NewAuto.get_foreclosure_terms refname t = (1, 3)) ∧
    (∀ code, NewAuto.extract_scheme_code refname = some code →
      NewAuto.inCodes NewAuto.GROUP_SCHEME_CODES (some code) = false →
      NewAuto.inCodes NewAuto.E_SERIES_CODES (some code) = false →
      NewAuto.get_foreclosure_terms refname t = (1, 3)) ∧
    (NewAuto.extract_scheme_code refname = none →
      ∀ v, NewAuto.extract_variant refname = some v →
      NewAuto.get_foreclosure_terms refname t = (1, 3)) := by
  refine ⟨?_, ?_, ?_, ?_⟩
  · intro code hc hE v hv
    have hG := eseries_not_group code hE
    simp only [NewAuto.get_foreclosure_terms, hc, hv, hG, hE,
      Bool.false_eq_true, false_and, if_false, if_true]
  · intro hv
    simp only [NewAuto.get_foreclosure_terms, hv]
  · intro code hc hG hE
    simp only [NewAuto.get_foreclosure_terms, hc, hG, hE,
      Bool.false_eq_true, false_and, if_false]
    split <;> rfl
  · intro hc v hv
    simp only [NewAuto.get_foreclosure_terms, hc, hv, NewAuto.inCodes,
      Bool.false_eq_true, false_and, if_false]

/-- C8 witness: an e-series economy identifier in the small ticket bucket
resolves to (1.50, 3), and an identifier with no variant resolves to the
default (1.00, 3). -/
theorem C8_witness :
    NewAuto.get_foreclosure_terms "(e0) economy <3l 12m".toList 12
      = (3/2, 3) ∧
    NewAuto.get_foreclosure_terms "(s5) 6m".toList 7 = (1, 3) := by
  constructor
  · have h := (C8_thm "(e0) economy <3l 12m".toList 12).1 ("e0".toList)
      (by decide) (by decide) "economy" (by decide)
    rw [h, if_pos (by decide)]
  · exact (C8_thm "(s5) 6m".toList 7).2.1 (by decide)

/-! ### Claim C6 -/

theorem computeRow_skip (row : NewAuto.Row)
    (h : (NewAuto.parseSig row.refName).overall_ltv = none ∨
         (NewAuto.parseSig row.refName).requested_tenure = none ∨
         (NewAuto.parseSig row.refName).monthly_opp = none ∨
         (NewAuto.parseSig row.refName).overall_ltv = some 0 ∨
         (NewAuto.parseSig row.refName).requested_tenure = some 0 ∨
         (NewAuto.parseSig row.refName).monthly_opp = some 0) :
    NewAuto.computeRow row = row := by
  rcases hl : (NewAuto.parseSig row.refName).overall_ltv with _ | ltv
  · simp only [NewAuto.computeRow, hl]
  · rcases ht : (NewAuto.parseSig row.refName).requested_tenure with _ | t
    · simp only [NewAuto.computeRow, hl, ht]
    · rcases ho : (NewAuto.parseSig row.refName).monthly_opp with _ | opp
      · simp only [NewAuto.computeRow, hl, ht, ho]
      · have h0 : ltv = 0 ∨ t = 0 ∨ opp = 0 := by
          rcases h with h | h | h | h | h | h <;> simp_all
        simp only [NewAuto.computeRow, hl, ht, ho]
        rw [if_pos h0]

theorem computeRow_processed (row : NewAuto.Row) (ltv opp : ℚ) (t : ℤ)
    (hl : (NewAuto.parseSig row.refName).overall_ltv = some ltv)
    (ht : (NewAuto.parseSig row.refName).requested_tenure = some t)
    (ho : (NewAuto.parseSig row.refName).monthly_opp = some opp)
    (hl0 : ltv ≠ 0) (ht0 : t ≠ 0) (ho0 : opp ≠ 0) :
    NewAuto.computeRow row
      = NewAuto.computeCore (NewAuto.parseSig row.refName) ltv t opp row := by
  simp only [NewAuto.computeRow, hl, ht, ho]
  rw [if_neg]
  push_neg
  exact ⟨hl0, ht0, ho0⟩

theorem computeCore_early_fields (sig : NewAuto.Sig) (ltv opp : ℚ) (t : ℤ)
    (row : NewAuto.Row) :
    (NewAuto.computeCore sig ltv t opp row).customerLtv = some ltv ∧
    (NewAuto.computeCore sig ltv t opp row).tenure
      = some (NewAuto.decision_engine ltv opp t).2 := by
  constructor <;>
  · simp only [NewAuto.computeCore]
    repeat' split
    all_goals rfl

/-- C6 (amended): a record missing any of the three mandatory identifier
fields (LTV code, term, stated monthly rate) is skipped whole — no field is
mutated; but the guard is Python truthiness over the extracted values, so a
record whose extracted term or rate is present but zero is also skipped.
A record with all three present and non-zero is processed (its LTV and
final-term cells are written).  In `Decision.py` the guard additionally
requires a present, non-zero stated fee. -/
theorem C6_thm (row : NewAuto.Row) :
    ((NewAuto.parseSig row.refName).overall_ltv = none ∨
     (NewAuto.parseSig row.refName).requested_tenure = none ∨
     (NewAuto.parseSig row.refName).monthly_opp = none →
      NewAuto.computeRow row = row) ∧
    ((NewAuto.parseSig row.refName).overall_ltv = some 0 ∨
     (NewAuto.parseSig row.refName).requested_tenure = some 0 ∨
     (NewAuto.parseSig row.refName).monthly_opp = some 0 →
      NewAuto.computeRow row = row) ∧
    (∀ ltv opp t, (NewAuto.parseSig row.refName).overall_ltv = some ltv →
      (NewAuto.parseSig row.refName).requested_tenure = some t →
      (NewAuto.parseSig row.refName).monthly_opp = some opp →
      ltv ≠ 0 → t ≠ 0 → opp ≠ 0 →
      (NewAuto.computeRow row).customerLtv = some ltv ∧
      (NewAuto.computeRow row).tenure
        = some (NewAuto.decision_engine ltv opp t).2) ∧
    (∀ (ltv opp : ℚ) (t : ℤ),
      DecisionPy.skip_guard (some ltv) (some t) (some opp) none = true) := by
  refine ⟨?_, ?_, ?_, ?_⟩
  · intro h
    exact computeRow_skip row (by tauto)
  · intro h
    exact computeRow_skip row (by tauto)
  · intro ltv opp t hl ht ho hl0 ht0 ho0
    rw [computeRow_processed row ltv opp t hl ht ho hl0 ht0 ho0]
    exact computeCore_early_fields _ ltv opp t row
  · intro ltv opp t
    simp [DecisionPy.skip_guard, DecisionPy.pyTruthy]

/-- C6 counterexample: the identifier "(E0) 12M 0% PF 1.00%" carries all
three mandatory fields (LTV 80, term 12, rate 0%), yet the Compute loop
skips the record because the zero rate is Python-falsy; `Decision.py`
additionally skips a record whose stated fee is absent even with the three
mandatory fields present and non-zero. -/
theorem C6_cex :
    (NewAuto.parseSig zeroRateRow.refName).overall_ltv = some 80 ∧
    (NewAuto.parseSig zeroRateRow.refName).requested_tenure = some 12 ∧
    (NewAuto.parseSig zeroRateRow.refName).monthly_opp = some 0 ∧
    NewAuto.computeRow zeroRateRow = zeroRateRow ∧
    DecisionPy.skip_guard (some 80) (some 12) (some 1) none = true := by
  refine ⟨by decide, by decide, by decide, ?_, by decide⟩
  rfl

/-- C6 witness: a record with the three fields present and non-zero is
processed — its LTV cell is written and its tenure becomes the decision
engine's final term. -/
theorem C6_witness :
    (NewAuto.computeRow plainRow).customerLtv = some 75 ∧
    (NewAuto.computeRow plainRow).tenure = some 12 := by
  have h := (C6_thm plainRow).2.2.1 75 1 12 (by decide) (by decide) (by decide)
    (by norm_num) (by norm_num) (by norm_num)
  refine ⟨h.1, ?_⟩
  rw [h.2]
  decide

/-! ### Claim C9 -/

/-- C9 (confirmed): when the secured-LTV basis equals the overall LTV —
equivalently (for a non-zero LTV) the back-calculation denominator
`1 − basis/overallLtv` is zero — the Compute loop leaves every fee and
foreclosure field of the record untouched, keeps the earlier tier/interest
mutations, and the batch map carries on over the remaining records; the
condition is never an error. -/
theorem C9_thm (sig : NewAuto.Sig) (ltv opp : ℚ) (t : ℤ) (row : NewAuto.Row)
    (hden : NewAuto.denominator_of
        (NewAuto.interest_engine (NewAuto.decision_engine ltv opp t).1
          (NewAuto.decision_engine ltv opp t).2 ltv opp).secure_ltv ltv = 0) :
    (∀ b l : ℚ, l ≠ 0 → (NewAuto.denominator_of b l = 0 ↔ b = l)) ∧
    (NewAuto.computeCore sig ltv t opp row).description = row.description ∧
    (NewAuto.computeCore sig ltv t opp row).applicableProcesses
      = row.applicableProcesses ∧
    (NewAuto.computeCore sig ltv t opp row).chargeText = row.chargeText ∧
    (NewAuto.computeCore sig ltv t opp row).bs2_charge_2 = row.bs2_charge_2 ∧
    (NewAuto.computeCore sig ltv t opp row).bs2_charge_3 = row.bs2_charge_3 ∧
    (NewAuto.computeCore sig ltv t opp row).bs2_NoOfCharges
      = row.bs2_NoOfCharges ∧
    (NewAuto.computeCore sig ltv t opp row).bs2_legalName = row.bs2_legalName ∧
    (NewAuto.computeCore sig ltv t opp row).customerLtv = some ltv ∧
    (NewAuto.computeCore sig ltv t opp row).tenure
      = some (NewAuto.decision_engine ltv opp t).2 ∧
    (NewAuto.computeCore sig ltv t opp row).refName
      = NewAuto.update_refname_tenure row.refName
          (NewAuto.decision_engine ltv opp t).2 ∧
    (NewAuto.computeCore sig ltv t opp row).bs1_ltv
      = some (NewAuto.interest_engine (NewAuto.decision_engine ltv opp t).1
          (NewAuto.decision_engine ltv opp t).2 ltv opp).secure_ltv ∧
    (NewAuto.computeCore sig ltv t opp row).overallInterestCalculation
      = row.overallInterestCalculation.map (fun d =>
          NewAuto.update_interest_json d
            (NewAuto.tupleToList (NewAuto.interest_engine
              (NewAuto.decision_engine ltv opp t).1
              (NewAuto.decision_engine ltv opp t).2 ltv opp).overall_slabs)
            (NewAuto.get_tenure_days (NewAuto.decision_engine ltv opp t).2)) ∧
    (∀ rows, NewAuto.computeBatch rows = rows.map NewAuto.computeRow) := by
  refine ⟨?_, ?_, ?_, ?_, ?_, ?_, ?_, ?_, ?_, ?_, ?_, ?_, ?_, fun rows => rfl⟩
  · intro b l hl
    constructor
    · intro h
      have hb : b / l = 1 := by
        simp only [NewAuto.denominator_of] at h
        linarith
      field_simp at hb
      exact hb
    · intro h
      subst h
      simp only [NewAuto.denominator_of]
      field_simp
  all_goals
    simp only [NewAuto.computeCore]
    rw [if_pos hden]

/-- C9 witness: at overall LTV 60 and requested term 12 the basis is 60 and
the denominator vanishes; the fee/foreclosure cells of a concrete row are
untouched while its tenure was still finalized. -/
theorem C9_witness :
    (NewAuto.computeCore emptySig 60 12 1 plainRow).chargeText
      = plainRow.chargeText ∧
    (NewAuto.computeCore emptySig 60 12 1 plainRow).bs2_charge_2
      = plainRow.bs2_charge_2 ∧
    (NewAuto.computeCore emptySig 60 12 1 plainRow).tenure = some 12 := by
  have h := C9_thm emptySig 60 1 12 plainRow (by decide)
  refine ⟨h.2.2.2.1, h.2.2.2.2.1, ?_⟩
  rw [h.2.2.2.2.2.2.2.2.2.1]
  decide

/-! ### Claim C10 -/

theorem prevAt_cons (prev : Option Char) (c : Char) (cs : List Char)
    (j : ℕ) : prevAt prev (c :: cs) (j + 1) = prevAt (some c) cs j := by
  cases j with
  | zero => rfl
  | succ j' => rfl

theorem matchLit_append : ∀ (tok s r : List Char),
    matchLit tok s = some r → s = tok ++ r := by
  intro tok
  induction tok with
  | nil =>
    intro s r h
    simp only [matchLit, Option.some.injEq] at h
    simp [h]
  | cons p ps ih =>
    intro s r h
    cases s with
    | nil => simp [matchLit] at h
    | cons c cs =>
      simp only [matchLit] at h
      split_ifs at h with hc
      subst hc
      simpa using ih cs r h

theorem reFind_some_spec (m : Option Char → List Char → Option (List Char)) :
    ∀ (s revPre : List Char) (prev : Option Char) rp m1 rest,
    reFind m revPre prev s = some (rp, m1, rest) →
    ∃ k, k ≤ s.length ∧ rp = (s.take k).reverse ++ revPre ∧ m1 = s.drop k ∧
      m (prevAt prev s k) (s.drop k) = some rest ∧
      ∀ j < k, m (prevAt prev s j) (s.drop j) = none := by
  intro s
  induction s with
  | nil =>
    intro revPre prev rp m1 rest h
    simp only [reFind] at h
    cases hm : m prev [] with
    | none => rw [hm] at h; simp at h
    | some r =>
      rw [hm] at h
      simp only [Option.map_some', Option.some.injEq, Prod.mk.injEq] at h
      obtain ⟨rfl, rfl, rfl⟩ := h
      refine ⟨0, Nat.le_refl _, by simp, by simp, ?_, ?_⟩
      · simpa [prevAt] using hm
      · intro j hj
        omega
  | cons c cs ih =>
    intro revPre prev rp m1 rest h
    simp only [reFind] at h
    cases hm : m prev (c :: cs) with
    | some r =>
      rw [hm] at h
      simp only [Option.some.injEq, Prod.mk.injEq] at h
      obtain ⟨rfl, rfl, rfl⟩ := h
      refine ⟨0, Nat.zero_le _, by simp, by simp, ?_, ?_⟩
      · simpa [prevAt] using hm
      · intro j hj
        omega
    | none =>
      rw [hm] at h
      obtain ⟨k, hk, hrp, hm1, hmk, hnone⟩ := ih (c :: revPre) (some c) rp m1 rest h
      refine ⟨k + 1, by simpa using Nat.succ_le_succ hk, ?_, ?_, ?_, ?_⟩
      · rw [hrp]
        simp [List.reverse_cons, List.append_assoc]
      · simpa using hm1
      · rw [prevAt_cons]
        simpa using hmk
      · intro j hj
        cases j with
        | zero => simpa [prevAt] using hm
        | succ j' =>
          rw [prevAt_cons]
          simpa using hnone j' (by omega)

/-- C10 (confirmed): with the Compute loop's encoding — "th7.si5" when the
final term is 12, "f8" otherwise — `update_bs2_legal_name` first replaces
the leftmost word-bounded term token, producing `u`, and then replaces
exactly the leftmost occurrence of "th7.si5" or "f8" in `u` by the encoding
(no earlier position matches, and the rest of `u` before and after the
match is kept verbatim); when neither token occurs, the leftmost occurrence
of "48.00%", "48%" or "37.65%" is replaced instead; when none of them
occurs, `u` is returned unchanged. -/
theorem C10_thm (text u : List Char) (t : ℤ)
    (hu : u = subFirst NewAuto.matchTermTokenAt (intToChars t ++ ['M']) text) :
    (t = 12 → NewAuto.legal_name_encoding t = "th7.si5".toList) ∧
    (t ≠ 12 → NewAuto.legal_name_encoding t = "f8".toList) ∧
    (∀ rp m1 rest,
      reFind NewAuto.matchEncTokenAt [] none u = some (rp, m1, rest) →
      rp.reverse = u.take rp.length ∧
      m1 = u.drop rp.length ∧
      ("th7.si5".toList ++ rest = m1 ∨ "f8".toList ++ rest = m1) ∧
      (∀ j < rp.length,
        NewAuto.matchEncTokenAt (prevAt none u j) (u.drop j) = none) ∧
      NewAuto.update_bs2_legal_name text t (NewAuto.legal_name_encoding t)
        = u.take rp.length ++ NewAuto.legal_name_encoding t ++ rest) ∧
    (reFind NewAuto.matchEncTokenAt [] none u = none →
      ∀ rp m1 rest,
      reFind NewAuto.matchPctTokenAt [] none u = some (rp, m1, rest) →
      rp.reverse = u.take rp.length ∧
      m1 = u.drop rp.length ∧
      ("48.00%".toList ++ rest = m1 ∨ "48%".toList ++ rest = m1 ∨
        "37.65%".toList ++ rest = m1) ∧
      (∀ j < rp.length,
        NewAuto.matchPctTokenAt (prevAt none u j) (u.drop j) = none) ∧
      NewAuto.update_bs2_legal_name text t (NewAuto.legal_name_encoding t)
        = u.take rp.length ++ NewAuto.legal_name_encoding t ++ rest) ∧
    (reFind NewAuto.matchEncTokenAt [] none u = none →
      reFind NewAuto.matchPctTokenAt [] none u = none →
      NewAuto.update_bs2_legal_name text t (NewAuto.legal_name_encoding t)
        = u) := by
  refine ⟨fun h => by simp [NewAuto.legal_name_encoding, h],
    fun h => by simp [NewAuto.legal_name_encoding, h], ?_, ?_, ?_⟩
  · intro rp m1 rest hf
    obtain ⟨k, hk, hrp, hm1, hmk, hnone⟩ :=
      reFind_some_spec NewAuto.matchEncTokenAt u [] none rp m1 rest hf
    rw [List.append_nil] at hrp
    have hlen : rp.length = k := by
      rw [hrp, List.length_reverse, List.length_take]
      exact Nat.min_eq_left hk
    have hrev : rp.reverse = u.take rp.length := by
      rw [hlen, hrp, List.reverse_reverse]
    have htok : "th7.si5".toList ++ rest = m1 ∨ "f8".toList ++ rest = m1 := by
      rw [← hm1] at hmk
      simp only [NewAuto.matchEncTokenAt] at hmk
      cases h7 : matchLit "th7.si5".toList m1 with
      | some r =>
        rw [h7] at hmk
        obtain rfl : r = rest := by simpa using hmk
        exact Or.inl (matchLit_append _ _ _ h7).symm
      | none =>
        rw [h7] at hmk
        exact Or.inr (matchLit_append _ _ _ hmk).symm
    refine ⟨hrev, by rw [hlen]; exact hm1, htok, fun j hj => hnone j (by omega), ?_⟩
    simp only [NewAuto.update_bs2_legal_name, ← hu]
    rw [if_pos (by simp [reSearchB, hf])]
    simp only [subFirst, hf]
    rw [hrev]
  · intro hnoenc rp m1 rest hf
    obtain ⟨k, hk, hrp, hm1, hmk, hnone⟩ :=
      reFind_some_spec NewAuto.matchPctTokenAt u [] none rp m1 rest hf
    rw [List.append_nil] at hrp
    have hlen : rp.length = k := by
      rw [hrp, List.length_reverse, List.length_take]
      exact Nat.min_eq_left hk
    have hrev : rp.reverse = u.take rp.length := by
      rw [hlen, hrp, List.reverse_reverse]
    have htok : "48.00%".toList ++ rest = m1 ∨ "48%".toList ++ rest = m1 ∨
        "37.65%".toList ++ rest = m1 := by
      rw [← hm1] at hmk
      simp only [NewAuto.matchPctTokenAt] at hmk
      cases h1 : matchLit "48.00%".toList m1 with
      | some r =>
        rw [h1] at hmk
        obtain rfl : r = rest := by simpa using hmk
        exact Or.inl (matchLit_append _ _ _ h1).symm
      | none =>
        rw [h1] at hmk
        cases h2 : matchLit "48%".toList m1 with
        | some r =>
          rw [h2] at hmk
          obtain rfl : r = rest := by simpa using hmk
          exact Or.inr (Or.inl (matchLit_append _ _ _ h2).symm)
        | none =>
          rw [h2] at hmk
          exact Or.inr (Or.inr (matchLit_append _ _ _ hmk).symm)
    refine ⟨hrev, by rw [hlen]; exact hm1, htok, fun j hj => hnone j (by omega), ?_⟩
    simp only [NewAuto.update_bs2_legal_name, ← hu]
    rw [if_neg (by simp [reSearchB, hnoenc])]
    simp only [subFirst, hf]
    rw [hrev]
  · intro h1 h2
    simp only [NewAuto.update_bs2_legal_name, ← hu]
    rw [if_neg (by simp [reSearchB, h1])]
    simp only [subFirst, h2]

/-- C10 witness: for the label "Gold 6M 48% f8 end" at final term 12, the
term step yields "Gold 12M 48% f8 end" and exactly the leftmost "f8" is
replaced by "th7.si5". -/
theorem C10_witness :
    NewAuto.update_bs2_legal_name "Gold 6M 48% f8 end".toList 12
        (NewAuto.legal_name_encoding 12)
      = ("Gold 12M 48% f8 end".toList).take 13
          ++ NewAuto.legal_name_encoding 12 ++ " end".toList := by
  have h := (C10_thm "Gold 6M 48% f8 end".toList "Gold 12M 48% f8 end".toList
      12 (by decide)).2.2.1
    (" %84 M21 dloG".toList) "f8 end".toList " end".toList (by decide)
  have hres := h.2.2.2.2
  simpa using hres

/-! ### Claim C7 -/

theorem getKey_setKey :
    ∀ (kvs : List (String × Json)) (key : String) (v : Json) (k' : String),
    Json.getKey (Json.setKey kvs key v) k'
      = if k' = key then some v else Json.getKey kvs k' := by
  intro kvs key v
  induction kvs with
  | nil =>
    intro k'
    by_cases h : k' = key
    · simp [Json.setKey, Json.getKey, h]
    · have h' : ¬ key = k' := fun hh => h hh.symm
      simp [Json.setKey, Json.getKey, h, h']
  | cons kv rest ih =>
    intro k'
    obtain ⟨k, w⟩ := kv
    simp only [Json.setKey]
    by_cases hk : k = key
    · subst hk
      rw [if_pos rfl]
      by_cases h : k' = k
      · simp [Json.getKey, h]
      · have h' : ¬ k = k' := fun hh => h hh.symm
        simp [Json.getKey, h, h']
    · rw [if_neg hk]
      simp only [Json.getKey]
      by_cases h : k = k'
      · subst h
        simp [hk]
      · simp [h, ih k']

theorem setKey_self :
    ∀ (kvs : List (String × Json)) (key : String) (v : Json),
    Json.getKey kvs key = some v → Json.setKey kvs key v = kvs := by
  intro kvs key v
  induction kvs with
  | nil => intro h; simp [Json.getKey] at h
  | cons kv rest ih =>
    intro h
    obtain ⟨k, w⟩ := kv
    simp only [Json.getKey] at h
    simp only [Json.setKey]
    by_cases hk : k = key
    · subst hk
      rw [if_pos rfl] at h ⊢
      obtain rfl : w = v := by simpa using h
      rfl
    · rw [if_neg hk] at h ⊢
      rw [ih h]

mutual
theorem slabLoc_restore : ∀ (d : Json) p, NewAuto.slabLoc d = some p →
    p.2 p.1 = d
  | .null, p => by simp [NewAuto.slabLoc]
  | .bool b, p => by simp [NewAuto.slabLoc]
  | .num q, p => by simp [NewAuto.slabLoc]
  | .str s, p => by simp [NewAuto.slabLoc]
  | .arr xs, p => by
      intro h
      simp only [NewAuto.slabLoc] at h
      split at h
      · cases h
        rfl
      · simp only [Option.map_eq_some'] at h
        obtain ⟨q, hq, rfl⟩ := h
        simpa using congrArg Json.arr (slabLocItems_restore xs q hq)
  | .obj kvs, p => by
      intro h
      simp only [NewAuto.slabLoc] at h
      cases hks : Json.getKey kvs "interestSlabs" with
      | some v =>
        rw [hks] at h
        cases v with
        | arr xs =>
          cases h
          simpa using congrArg Json.obj (setKey_self kvs "interestSlabs" (.arr xs) hks)
        | null =>
          rw [show (match (some Json.null : Option Json) with
            | some (.arr xs) =>
              some (xs, fun l => Json.obj (Json.setKey kvs "interestSlabs" (.arr l)))
            | _ => (NewAuto.slabLocKVs kvs).map
                (fun p => (p.1, fun l => Json.obj (p.2 l)))) =
            (NewAuto.slabLocKVs kvs).map
              (fun p => (p.1, fun l => Json.obj (p.2 l))) from rfl] at h
          simp only [Option.map_eq_some'] at h
          obtain ⟨q, hq, rfl⟩ := h
          simpa using congrArg Json.obj (slabLocKVs_restore kvs q hq)
        | bool b =>
          simp only [Option.map_eq_some'] at h
          obtain ⟨q, hq, rfl⟩ := h
          simpa using congrArg Json.obj (slabLocKVs_restore kvs q hq)
        | num n =>
          simp only [Option.map_eq_some'] at h
          obtain ⟨q, hq, rfl⟩ := h
          simpa using congrArg Json.obj (slabLocKVs_restore kvs q hq)
        | str s =>
          simp only [Option.map_eq_some'] at h
          obtain ⟨q, hq, rfl⟩ := h
          simpa using congrArg Json.obj (slabLocKVs_restore kvs q hq)
        | obj o =>
          simp only [Option.map_eq_some'] at h
          obtain ⟨q, hq, rfl⟩ := h
          simpa using congrArg Json.obj (slabLocKVs_restore kvs q hq)
      | none =>
        rw [hks] at h
        simp only [Option.map_eq_some'] at h
        obtain ⟨q, hq, rfl⟩ := h
        simpa using congrArg Json.obj (slabLocKVs_restore kvs q hq)
theorem slabLocKVs_restore : ∀ (kvs : List (String × Json)) p,
    NewAuto.slabLocKVs kvs = some p → p.2 p.1 = kvs
  | [], p => by simp [NewAuto.slabLocKVs]
  | (k, v) :: rest, p => by
      intro h
      simp only [NewAuto.slabLocKVs] at h
      cases hv : NewAuto.slabLoc v with
      | some q =>
        rw [hv] at h
        cases h
        simpa using slabLoc_restore v q hv
      | none =>
        rw [hv] at h
        simp only [Option.map_eq_some'] at h
        obtain ⟨q, hq, rfl⟩ := h
        simpa using slabLocKVs_restore rest q hq
theorem slabLocItems_restore : ∀ (xs : List Json) p,
    NewAuto.slabLocItems xs = some p → p.2 p.1 = xs
  | [], p => by simp [NewAuto.slabLocItems]
  | v :: rest, p => by
      intro h
      simp only [NewAuto.slabLocItems] at h
      cases hv : NewAuto.slabLoc v with
      | some q =>
        rw [hv] at h
        cases h
        simpa using slabLoc_restore v q hv
      | none =>
        rw [hv] at h
        simp only [Option.map_eq_some'] at h
        obtain ⟨q, hq, rfl⟩ := h
        simpa using slabLocItems_restore rest q hq
end

theorem patchRates_length : ∀ (k : ℕ) (ss : List ℚ) (es : List Json),
    (NewAuto.patchRates k ss es).length = es.length
  | 0, _, es => by simp [NewAuto.patchRates]
  | _ + 1, [], es => by simp [NewAuto.patchRates]
  | _ + 1, _ :: _, [] => by simp [NewAuto.patchRates]
  | k + 1, s :: ss, e :: es => by
      simp [NewAuto.patchRates, patchRates_length k ss es]

theorem patchRates_get? : ∀ (k : ℕ) (ss : List ℚ) (es : List Json) (i : ℕ),
    (NewAuto.patchRates k ss es).get? i =
      (es.get? i).map (fun e =>
        match (if i < k then ss.get? i else none) with
        | some s => NewAuto.setRateAt e (round2 s)
        | none => e)
  | 0, ss, es, i => by
      simp [NewAuto.patchRates]
  | _ + 1, [], es, i => by
      simp [NewAuto.patchRates]
  | _ + 1, _ :: _, [], i => by
      simp [NewAuto.patchRates]
  | k + 1, s :: ss, e :: es, i => by
      cases i with
      | zero => simp [NewAuto.patchRates]
      | succ i' =>
        have ih := patchRates_get? k ss es i'
        simp only [NewAuto.patchRates, List.get?_cons_succ, ih]
        have hcond : (i' + 1 < k + 1) ↔ (i' < k) := Nat.succ_lt_succ_iff
        simp only [hcond]

theorem setToDayLast_length : ∀ (days : ℤ) (es : List Json),
    (NewAuto.setToDayLast days es).length = es.length
  | _, [] => by simp [NewAuto.setToDayLast]
  | _, [_] => by simp [NewAuto.setToDayLast]
  | days, e :: e2 :: es => by
      simp [NewAuto.setToDayLast, setToDayLast_length days (e2 :: es)]

theorem setToDayLast_get? : ∀ (days : ℤ) (es : List Json) (i : ℕ),
    (NewAuto.setToDayLast days es).get? i =
      (es.get? i).map (fun e =>
        if i + 1 = es.length then NewAuto.setToDayElem days e else e)
  | _, [], i => by simp [NewAuto.setToDayLast]
  | days, [e], i => by
      cases i with
      | zero => simp [NewAuto.setToDayLast]
      | succ i' => simp [NewAuto.setToDayLast]
  | days, e :: e2 :: es, i => by
      cases i with
      | zero =>
        have hne : ¬ (0 + 1 = (e :: e2 :: es).length) := by
          simp [List.length_cons]
        simp only [NewAuto.setToDayLast, List.get?_cons_zero, Option.map_some']
        rw [if_neg hne]
      | succ i' =>
        have ih := setToDayLast_get? days (e2 :: es) i'
        simp only [NewAuto.setToDayLast, List.get?_cons_succ, ih]
        have hcond : (i' + 1 + 1 = (e :: e2 :: es).length)
            ↔ (i' + 1 = (e2 :: es).length) := by
          simp [List.length_cons]
        simp only [hcond]

theorem patchSlabList_length (slabs : List ℚ) (days : ℤ) (l : List Json) :
    (NewAuto.patchSlabList slabs days l).length = l.length := by
  rw [NewAuto.patchSlabList, setToDayLast_length, patchRates_length]

theorem patchSlabList_get? (slabs : List ℚ) (days : ℤ) (l : List Json)
    (i : ℕ) (e : Json) (he : l.get? i = some e) :
    (NewAuto.patchSlabList slabs days l).get? i
      = some (if i + 1 = l.length
          then NewAuto.setToDayElem days (NewAuto.ratePatchedElem slabs i e)
          else NewAuto.ratePatchedElem slabs i e) := by
  rw [NewAuto.patchSlabList, setToDayLast_get?, patchRates_get?, he,
    patchRates_length]
  simp [NewAuto.ratePatchedElem]

theorem patchRootSlab_id (d : Json) (slabs : List ℚ) (days : ℤ)
    (h : ¬ ∃ kvs s ss, d = Json.obj kvs ∧ slabs = s :: ss ∧
      (Json.getKey kvs "interestRate").isSome = true) :
    NewAuto.patchRootSlab d slabs days = d := by
  cases d with
  | obj kvs =>
    cases slabs with
    | nil => rfl
    | cons s ss =>
      simp only [NewAuto.patchRootSlab]
      by_cases hir : (Json.getKey kvs "interestRate").isSome = true
      · exact absurd ⟨kvs, s, ss, rfl, rfl, hir⟩ h
      · rw [if_neg hir]
  | null => cases slabs <;> rfl
  | bool b => cases slabs <;> rfl
  | num q => cases slabs <;> rfl
  | str st => cases slabs <;> rfl
  | arr xs => cases slabs <;> rfl

/-- C7 (amended): the slab patch overwrites exactly the `interestRate` of
the first `min(3, listLength, suppliedSlabCount)` elements of the found
slab list (rounded to 2 decimals — see `ratePatchedElem`), sets the last
element's `toDay` to the term length in days (6 → 180, 7 → 210, 12 → 360,
otherwise 30 × term), and leaves everything else unchanged: the patched
list has the same length, every element is characterized pointwise, a key
overwrite touches no other key (`getKey_setKey`), and the rest of the
document is restored exactly by the zipper (`k l = d`).  A parseable
document with no matching list is returned semantically unchanged — unless
the root itself is an object with an `interestRate` key and at least one
slab is supplied, in which case the source patches the root object
directly (`patchRootSlab`, lines 531-535). -/
theorem C7_thm (d : Json) (slabs : List ℚ) (days t : ℤ) :
    (NewAuto.get_tenure_days 6 = 180 ∧ NewAuto.get_tenure_days 7 = 210 ∧
     NewAuto.get_tenure_days 12 = 360 ∧
     (t ≠ 6 → t ≠ 7 → t ≠ 12 → NewAuto.get_tenure_days t = t * 30)) ∧
    (∀ (kvs : List (String × Json)) (key : String) (v : Json) (k' : String),
      Json.getKey (Json.setKey kvs key v) k'
        = if k' = key then some v else Json.getKey kvs k') ∧
    (∀ l, NewAuto.find_slab_list d = some l → l ≠ [] →
      ∃ k, NewAuto.slabLoc d = some (l, k) ∧ k l = d ∧
        NewAuto.update_interest_json d slabs days
          = k (NewAuto.patchSlabList slabs days l) ∧
        (NewAuto.patchSlabList slabs days l).length = l.length ∧
        (∀ i e, l.get? i = some e →
          (NewAuto.patchSlabList slabs days l).get? i
            = some (if i + 1 = l.length
                then NewAuto.setToDayElem days (NewAuto.ratePatchedElem slabs i e)
                else NewAuto.ratePatchedElem slabs i e))) ∧
    (NewAuto.find_slab_list d = none →
      NewAuto.update_interest_json d slabs days
        = NewAuto.patchRootSlab d slabs days) ∧
    (NewAuto.find_slab_list d = none →
      (¬ ∃ kvs s ss, d = Json.obj kvs ∧ slabs = s :: ss ∧
        (Json.getKey kvs "interestRate").isSome = true) →
      NewAuto.update_interest_json d slabs days = d) := by
  refine ⟨⟨rfl, rfl, rfl, ?_⟩, getKey_setKey, ?_, ?_, ?_⟩
  · intro h6 h7 h12
    simp [NewAuto.get_tenure_days, h6, h7, h12]
  · intro l hfind hne
    rcases hloc : NewAuto.slabLoc d with _ | p
    · rw [NewAuto.find_slab_list, hloc] at hfind
      simp at hfind
    · obtain ⟨l', k⟩ := p
      rw [NewAuto.find_slab_list, hloc] at hfind
      simp only [Option.map_some', Option.some.injEq] at hfind
      rw [← hfind] at hne ⊢
      refine ⟨k, rfl, slabLoc_restore d (l', k) hloc, ?_,
        patchSlabList_length slabs days l',
        fun i e he => patchSlabList_get? slabs days l' i e he⟩
      simp only [NewAuto.update_interest_json, hloc]
      rw [if_neg (by simpa [List.isEmpty_iff] using hne)]
  · intro hfind
    rcases hloc : NewAuto.slabLoc d with _ | p
    · rw [NewAuto.update_interest_json, hloc]
    · rw [NewAuto.find_slab_list, hloc] at hfind
      simp at hfind
  · intro hfind hroot
    rcases hloc : NewAuto.slabLoc d with _ | p
    · rw [NewAuto.update_interest_json, hloc]
      exact patchRootSlab_id d slabs days hroot
    · rw [NewAuto.find_slab_list, hloc] at hfind
      simp at hfind

/-- C7 counterexample: the parseable document whose root is the object with
the single pair `interestRate ↦ 5` contains no matching slab list, yet the
patch rewrites it — refuting the claim that every parseable document with
no matching list is returned semantically unchanged. -/
theorem C7_cex :
    NewAuto.find_slab_list (Json.obj [("interestRate", Json.num 5)]) = none ∧
    NewAuto.update_interest_json (Json.obj [("interestRate", Json.num 5)])
        [9, 9, 9] 360
      = Json.obj [("interestRate", Json.num 9)] ∧
    NewAuto.update_interest_json (Json.obj [("interestRate", Json.num 5)])
        [9, 9, 9] 360
      ≠ Json.obj [("interestRate", Json.num 5)] := by
  refine ⟨rfl, rfl, ?_⟩
  intro h
  rw [show NewAuto.update_interest_json (Json.obj [("interestRate", Json.num 5)])
        [9, 9, 9] 360 = Json.obj [("interestRate", Json.num 9)] from rfl] at h
  have h5 := congrArg (fun d => match d with
    | Json.obj (("interestRate", Json.num q) :: _) => q
    | _ => 0) h
  simp at h5

/-- C7 witness: on a document holding an `interestSlabs` list of three
objects, the patch goes through the found list (restored exactly by the
zipper), and the day mapping sends term 13 to 390. -/
theorem C7_witness :
    NewAuto.get_tenure_days 13 = 390 ∧
    ∃ k, NewAuto.slabLoc wDoc = some (wList, k) ∧ k wList = wDoc ∧
      NewAuto.update_interest_json wDoc [10, 11, 12] 210
        = k (NewAuto.patchSlabList [10, 11, 12] 210 wList) := by
  have h := C7_thm wDoc [10, 11, 12] 210 13
  refine ⟨?_, ?_⟩
  · have h4 := h.1.2.2.2 (by decide) (by decide) (by decide)
    rw [h4]; norm_num
  · obtain ⟨k, h1, h2, h3, _, _⟩ :=
      h.2.2.1 wList (by rfl) (by simp [wList])
    exact ⟨k, h1, h2, h3⟩
